import Mathlib

/-! ftdi-bitbang: option parsing and device opening (`src/cmd-common.c`)

A shallow embedding of `common_options` and `common_ftdi_init`.

* The six process-wide globals of `cmd-common.c` become the record `Config`;
  `errno` is carried next to it in `State`, because `common_options` reads it.
* Everything observable (calls of the caller-supplied callbacks, lines written
  to `stderr`, calls into libftdi) is recorded, in program order, as a list of
  `Event`s.
* The C library routines the code relies on (`strtol`, `atoi`, `getopt_long`)
  are modelled after their documented behaviour; libftdi is an arbitrary
  `Driver` oracle.
-/

namespace FtdiBitbang

/-! ## C integer model -/

/-- The C data models the tools are built for: `int` has 32 bits in both,
`long` has 32 bits (ILP32) or 64 bits (LP64). -/
inductive DataModel where
  | ILP32
  | LP64
  deriving DecidableEq, Repr

/-- Width of `long` in bits. -/
def DataModel.longBits : DataModel → Nat
  | .ILP32 => 32
  | .LP64 => 64

/-- The constant `LONG_MAX` of `limits.h`. -/
def LONG_MAX (dm : DataModel) : Int := 2 ^ (dm.longBits - 1) - 1

/-- The constant `LONG_MIN` of `limits.h`. -/
def LONG_MIN (dm : DataModel) : Int := -(2 ^ (dm.longBits - 1))

/-- The value of `ERANGE` in `errno.h` (Linux). -/
def ERANGE : Int := 34

/-- The value of `EXIT_FAILURE` in `stdlib.h`. -/
def EXIT_FAILURE : Int := 1

/-- The conversion `(int)x` of a `long`: the value is reduced modulo `2^32`
into the range of a 32-bit two's complement `int`. -/
def toInt32 (x : Int) : Int := (x + 2 ^ 31) % 2 ^ 32 - 2 ^ 31

/-- The conversion `(uint16_t)i`: reduction modulo `2^16`. -/
def toUInt16 (i : Int) : Nat := (i % 65536).toNat

/-! ## `strtol` and `atoi` -/

/-- The predicate `isspace` in the C locale: space, and `\t \n \v \f \r`. -/
def isspace (c : Char) : Bool :=
  c.toNat = 32 || (9 ≤ c.toNat && c.toNat ≤ 13)

/-- Value of a character as a digit in bases up to 36, as `strtol` reads it. -/
def digitVal (c : Char) : Option Nat :=
  if 48 ≤ c.toNat ∧ c.toNat ≤ 57 then some (c.toNat - 48)
  else if 97 ≤ c.toNat ∧ c.toNat ≤ 122 then some (c.toNat - 97 + 10)
  else if 65 ≤ c.toNat ∧ c.toNat ≤ 90 then some (c.toNat - 65 + 10)
  else none

/-- Value of a character as a digit of the given base, if it is one. -/
def digitOf (base : Nat) (c : Char) : Option Nat :=
  match digitVal c with
  | some d => if d < base then some d else none
  | none => none

/-- The number denoted by the longest run of base-`base` digits at the head of
the string, continuing the accumulator `acc` (zero when the run is empty). -/
def scanDigits (base : Nat) : Nat → List Char → Nat
  | acc, [] => acc
  | acc, c :: cs =>
    match digitOf base c with
    | some d => scanDigits base (acc * base + d) cs
    | none => acc

/-- Removes the prefix `0x` / `0X` when base is 16 and a hexadecimal digit
follows it. -/
def skipHexPrefix (base : Nat) (s : List Char) : List Char :=
  match s with
  | z :: x :: d :: r =>
    if base = 16 ∧ z.toNat = 48 ∧ (x.toNat = 120 ∨ x.toNat = 88) ∧ (digitOf 16 d).isSome
    then d :: r else s
  | _ => s

/-- The library call `strtol(nptr, NULL, base)` for a base in `2..36`: leading
white space, an optional sign, for base 16 an optional `0x`, then the longest
run of digits.  The result is the converted value and whether `errno` is set to
`ERANGE`: a value outside the range of `long` is clamped to `LONG_MIN` /
`LONG_MAX` and reported.  A string with no digits converts to 0. -/
def strtol (dm : DataModel) (nptr : List Char) (base : Nat) : Int × Bool :=
  let s := nptr.dropWhile isspace
  let neg : Bool := match s with
    | c :: _ => c.toNat = 45
    | [] => false
  let s := match s with
    | c :: r => if c.toNat = 45 ∨ c.toNat = 43 then r else s
    | [] => s
  let mag : Int := scanDigits base 0 (skipHexPrefix base s)
  if neg then
    if mag > -(LONG_MIN dm) then (LONG_MIN dm, true) else (-mag, false)
  else
    if mag > LONG_MAX dm then (LONG_MAX dm, true) else (mag, false)

/-- The library call `atoi(nptr)` as glibc defines it:
`(int) strtol(nptr, NULL, 10)`, with the effect on `errno` that this has. -/
def atoi (dm : DataModel) (nptr : List Char) : Int × Bool :=
  let r := strtol dm nptr 10
  (toInt32 r.1, r.2)

/-! ## Configuration and events -/

/-- The globals of `cmd-common.c`, lines 18-29. `usb_vid` and `usb_pid` are
`uint16_t`, the strings are `NULL` (`none`) or point to text, `interface` and
`reset` are `int`. -/
structure Config where
  usb_vid : Nat
  usb_pid : Nat
  usb_description : Option (List Char)
  usb_serial : Option (List Char)
  interface : Int
  reset : Int
  deriving DecidableEq, Repr

/-- The constant `INTERFACE_ANY` of libftdi's `enum ftdi_interface`. -/
def INTERFACE_ANY : Int := 0

/-- The initial values of the globals. -/
def Config.default : Config :=
  { usb_vid := 0, usb_pid := 0, usb_description := none, usb_serial := none,
    interface := INTERFACE_ANY, reset := 0 }

/-- The globals together with `errno`. -/
structure State where
  cfg : Config
  errno : Int
  deriving DecidableEq, Repr

/-- A libftdi context pointer returned by `ftdi_new`. -/
abbrev Ctx := Nat

/-- A libusb device pointer, as found in an `ftdi_device_list` entry. -/
abbrev Dev := Nat

/-- The lines the module writes to `stderr`. -/
inductive Diag where
  /-- Line 74: invalid usb vid value. -/
  | invalid_vid
  /-- Line 82: invalid usb pid value. -/
  | invalid_pid
  /-- Line 96: invalid interface. -/
  | invalid_interface
  /-- Line 122: ftdi_new() failed. -/
  | ftdi_new_failed
  /-- Line 127: unable to set selected interface on ftdi device, with `err`. -/
  | set_interface_failed (err : Int)
  /-- Line 134: unable to find any matching device. -/
  | no_matching_device
  /-- Lines 140 and 146: unable to open ftdi device. -/
  | open_failed
  /-- Line 153: failed to reset device. -/
  | reset_failed
  deriving DecidableEq, Repr

/-- Observable actions, in program order. Calls into libftdi carry their
arguments and the value the library returned. -/
inductive Event where
  | p_options (c : Int) (optarg : Option (List Char)) (ret : Int)
  | usage
  | p_help
  | p_exit (status : Int)
  | stderr (d : Diag)
  | ftdi_new (ret : Option Ctx)
  | ftdi_set_interface (ftdi : Ctx) (iface : Int) (ret : Int)
  | ftdi_usb_find_all (ftdi : Ctx) (vid pid : Nat) (ret : Int)
  | ftdi_usb_open_dev (ftdi : Ctx) (dev : Dev) (ret : Int)
  | ftdi_list_free
  | ftdi_usb_open_desc (ftdi : Ctx) (vid pid : Nat)
      (description serial : Option (List Char)) (ret : Int)
  | ftdi_usb_reset (ftdi : Ctx) (ret : Int)
  deriving DecidableEq, Repr

/-! ## `common_options` -/

/-- How one pass through the body of the `while` loop ends. -/
inductive Flow where
  /-- The loop goes on with the next option. -/
  | next
  /-- The exit callback `p_exit` was called with this status. -/
  | exit (status : Int)
  /-- A null `optarg` was handed to `strtol`, `atoi` or `strdup`. -/
  | undefined
  deriving DecidableEq, Repr

/-- Modelled from the spec: the exit callback `p_exit`, declared in
`cmd-common.h` and defined by each command, neither of which is under `src/`;
it "terminates the process with a given status code".  A call is recorded as
`Event.p_exit status` and ends the run (`Flow.exit`). -/
def p_exit (status : Int) : List Event × Flow :=
  ([Event.p_exit status], Flow.exit status)

/-- The function `common_help` (lines 32-56): prints the usage text, then calls
the caller-supplied `p_help`. -/
def common_help : List Event := [Event.usage, Event.p_help]

/-- The code of an option character. -/
def chr (c : Char) : Int := c.toNat

/-- The `switch (c)` of `common_options` (lines 70-108) for one option that the
caller's handler did not claim. Returns the new state, what was printed or
called, and how the pass ends. `strdup` is taken to succeed. -/
def common_switch (dm : DataModel) (c : Int) (optarg : Option (List Char))
    (st : State) : State × List Event × Flow :=
  if c = chr 'V' then
    match optarg with
    | none => (st, [], Flow.undefined)
    | some a =>
      let r := strtol dm a 16
      let i := toInt32 r.1
      let errno := if r.2 then ERANGE else st.errno
      if errno = ERANGE ∨ i < 0 ∨ i > 0xffff then
        ({ st with errno := errno }, Event.stderr Diag.invalid_vid :: (p_exit 1).1, (p_exit 1).2)
      else
        ({ cfg := { st.cfg with usb_vid := toUInt16 i }, errno := errno }, [], Flow.next)
  else if c = chr 'P' then
    match optarg with
    | none => (st, [], Flow.undefined)
    | some a =>
      let r := strtol dm a 16
      let i := toInt32 r.1
      let errno := if r.2 then ERANGE else st.errno
      if errno = ERANGE ∨ i < 0 ∨ i > 0xffff then
        ({ st with errno := errno }, Event.stderr Diag.invalid_pid :: (p_exit 1).1, (p_exit 1).2)
      else
        ({ cfg := { st.cfg with usb_pid := toUInt16 i }, errno := errno }, [], Flow.next)
  else if c = chr 'D' then
    match optarg with
    | none => (st, [], Flow.undefined)
    | some a => ({ st with cfg := { st.cfg with usb_description := some a } }, [], Flow.next)
  else if c = chr 'S' then
    match optarg with
    | none => (st, [], Flow.undefined)
    | some a => ({ st with cfg := { st.cfg with usb_serial := some a } }, [], Flow.next)
  else if c = chr 'I' then
    match optarg with
    | none => (st, [], Flow.undefined)
    | some a =>
      let r := atoi dm a
      let errno := if r.2 then ERANGE else st.errno
      let st1 : State := { cfg := { st.cfg with interface := r.1 }, errno := errno }
      if st1.cfg.interface < 0 ∨ st1.cfg.interface > 4 then
        (st1, Event.stderr Diag.invalid_interface :: (p_exit 1).1, (p_exit 1).2)
      else
        (st1, [], Flow.next)
  else if c = chr 'R' then
    ({ st with cfg := { st.cfg with reset := 1 } }, [], Flow.next)
  else
    (st, common_help ++ (p_exit 1).1, (p_exit 1).2)

/-- The caller-supplied option handler `p_options(c, optarg)`, declared in
`cmd-common.h` and defined by each command. It has a private state of type `σ`
and returns an `int`; non-zero means that it claimed the option. It is taken
not to write the globals of `cmd-common.c` nor `errno`. -/
abbrev Handler (σ : Type) := σ → Int → Option (List Char) → Int × σ

/-- One pass through the body of the `while` loop (lines 65-108): the option is
offered to `p_options`; if it is claimed the loop continues, otherwise the
`switch` handles it. -/
def common_options_body {σ : Type} (dm : DataModel) (h : Handler σ)
    (c : Int) (optarg : Option (List Char)) (st : State) (hs : σ) :
    State × σ × List Event × Flow :=
  let r := h hs c optarg
  if r.1 ≠ 0 then
    (st, r.2, [Event.p_options c optarg r.1], Flow.next)
  else
    let sw := common_switch dm c optarg st
    (sw.1, r.2, Event.p_options c optarg r.1 :: sw.2.1, sw.2.2)

/-- How a run of `common_options` ends. -/
inductive Outcome where
  /-- The function returned this value. -/
  | returned (ret : Int)
  /-- The process was terminated through `p_exit`. -/
  | exited (status : Int)
  /-- Undefined behaviour: a null `optarg` was dereferenced. -/
  | undefined
  deriving DecidableEq, Repr

/-- The result of a run: the globals and `errno` at its end (for a terminated
run, at the call of `p_exit`), the handler's state, the events, the outcome. -/
structure Run (σ : Type) where
  state : State
  hstate : σ
  trace : List Event
  outcome : Outcome

/-- The `while` loop of `common_options` (lines 64-109) over the successive
results `(c, optarg)` of `getopt_long`; the end of the list stands for the
final `-1`. The loop also ends at a result that is not greater than `-1`. -/
def common_options_loop {σ : Type} (dm : DataModel) (h : Handler σ) :
    List (Int × Option (List Char)) → State → σ → Run σ
  | [], st, hs => { state := st, hstate := hs, trace := [], outcome := Outcome.returned 0 }
  | (c, optarg) :: rest, st, hs =>
    if c > -1 then
      let b := common_options_body dm h c optarg st hs
      match b.2.2.2 with
      | Flow.next =>
        let r := common_options_loop dm h rest b.1 b.2.1
        { r with trace := b.2.2.1 ++ r.trace }
      | Flow.exit status =>
        { state := b.1, hstate := b.2.1, trace := b.2.2.1, outcome := Outcome.exited status }
      | Flow.undefined =>
        { state := b.1, hstate := b.2.1, trace := b.2.2.1, outcome := Outcome.undefined }
    else
      { state := st, hstate := hs, trace := [], outcome := Outcome.returned 0 }

/-! ## `getopt_long` -/

/-- An entry of the `struct option` table of `getopt.h`: `has_arg` is
`no_argument` (0), `required_argument` (1) or `optional_argument` (2); `flag`
is the address stored in the entry, if it is not `NULL`. -/
structure option where
  name : List Char
  has_arg : Nat
  flag : Option Nat
  val : Int
  deriving DecidableEq, Repr

/-- The value `getopt_long` returns for a recognised long option. -/
def option.result (o : option) : Int :=
  match o.flag with
  | none => o.val
  | some _ => 0

/-- Looks a long option name up as glibc does: an exact match wins; otherwise
the name may abbreviate entries, which is accepted when all the entries it
abbreviates agree in `has_arg`, `flag` and `val`. -/
def findLong (longopts : List option) (name : List Char) : Option option :=
  match longopts.find? (fun o => o.name = name) with
  | some o => some o
  | none =>
    match longopts.filter (fun o => name.isPrefixOf o.name) with
    | [] => none
    | o :: rest =>
      if rest.all (fun p => p.has_arg = o.has_arg ∧ p.flag = o.flag ∧ p.val = o.val)
      then some o else none

/-- What `getopt_long` returns for a missing argument: `':'` when the short
option string starts with a colon, else `'?'`. -/
def missingArg (opts : List Char) : Int :=
  match opts with
  | ':' :: _ => chr ':'
  | _ => chr '?'

/-- One long option `--body`, where `next` is the following element of `argv`
if there is one. Returns the value of `getopt_long`, `optarg`, and whether
`next` was taken as the argument. -/
def scanLong (opts : List Char) (longopts : List option) (body : List Char)
    (next : Option (List Char)) : (Int × Option (List Char)) × Bool :=
  let name := body.takeWhile (fun c => c ≠ '=')
  let rest := body.dropWhile (fun c => c ≠ '=')
  match findLong longopts name with
  | none => ((chr '?', none), false)
  | some o =>
    match rest with
    | _ :: value =>
      if o.has_arg = 0 then ((chr '?', none), false)
      else ((o.result, some value), false)
    | [] =>
      if o.has_arg = 1 then
        match next with
        | some a => ((o.result, some a), true)
        | none => ((missingArg opts, none), false)
      else ((o.result, none), false)

/-- How the short option string declares the character `ch`: `none` when it
does not, else 0 (no argument), 1 (`ch:`) or 2 (`ch::`). -/
def optKind : List Char → Char → Option Nat
  | [], _ => none
  | o :: rest, ch =>
    if o = ch ∧ ch ≠ ':' ∧ ch ≠ ';' then
      match rest with
      | ':' :: ':' :: _ => some 2
      | ':' :: _ => some 1
      | _ => some 0
    else optKind rest ch

/-- The short options packed in one element `-chars` of `argv`. Returns the
successive results of `getopt_long` and whether `next` was taken as an
argument. -/
def scanShort (opts : List Char) (next : Option (List Char)) :
    List Char → List (Int × Option (List Char)) × Bool
  | [] => ([], false)
  | ch :: rest =>
    match optKind opts ch with
    | none =>
      let r := scanShort opts next rest
      ((chr '?', none) :: r.1, r.2)
    | some 0 =>
      let r := scanShort opts next rest
      ((chr ch, none) :: r.1, r.2)
    | some 1 =>
      match rest with
      | _ :: _ => ([(chr ch, some rest)], false)
      | [] =>
        match next with
        | some a => ([(chr ch, some a)], true)
        | none => ([(missingArg opts, none)], false)
    | some _ =>
      match rest with
      | _ :: _ => ([(chr ch, some rest)], false)
      | [] => ([(chr ch, none)], false)

/-- The successive results `(c, optarg)` of the calls of
`getopt_long(argc, argv, opts, longopts, &longindex)` over the elements of
`argv` after `argv[0]`, up to (not including) the final `-1`, in the default
scanning mode (no leading `+` or `-` in `opts`, no `W;`): an element that is
not an option is passed over, `--` ends the options. `skip` says that the head
element was already taken as the argument of the option before it. -/
def getopt_scan (opts : List Char) (longopts : List option) :
    Bool → List (List Char) → List (Int × Option (List Char))
  | _, [] => []
  | true, _ :: rest => getopt_scan opts longopts false rest
  | false, a :: rest =>
    match a with
    | '-' :: '-' :: [] => []
    | '-' :: '-' :: body =>
      let r := scanLong opts longopts body rest.head?
      r.1 :: getopt_scan opts longopts r.2 rest
    | '-' :: c :: cs =>
      let r := scanShort opts rest.head? (c :: cs)
      r.1 ++ getopt_scan opts longopts r.2 rest
    | _ => getopt_scan opts longopts false rest

/-- The function `common_options(argc, argv, opts, longopts)` (lines 58-112),
run from the state `st` of the globals with the handler in state `hs`. -/
def common_options {σ : Type} (dm : DataModel) (h : Handler σ)
    (argv : List (List Char)) (opts : List Char) (longopts : List option)
    (st : State) (hs : σ) : Run σ :=
  common_options_loop dm h (getopt_scan opts longopts false argv.tail) st hs

/-- Modelled from the spec: the short option string `COMMON_SHORT_OPTS` of
`cmd-common.h`, which is not under `src/`; the options of the CLI surface
`-h`, `-V ID`, `-P ID`, `-D STRING`, `-S STRING`, `-I INTERFACE`, `-R`. -/
def COMMON_SHORT_OPTS : List Char :=
  ['h', 'V', ':', 'P', ':', 'D', ':', 'S', ':', 'I', ':', 'R']

/-- Modelled from the spec: the long option table `COMMON_LONG_OPTS` of
`cmd-common.h`, which is not under `src/`; the long names of the CLI surface
paired with the short option characters. -/
def COMMON_LONG_OPTS : List option :=
  [ { name := ['h', 'e', 'l', 'p'], has_arg := 0, flag := none, val := chr 'h' },
    { name := ['v', 'i', 'd'], has_arg := 1, flag := none, val := chr 'V' },
    { name := ['p', 'i', 'd'], has_arg := 1, flag := none, val := chr 'P' },
    { name := ['d', 'e', 's', 'c', 'r', 'i', 'p', 't', 'i', 'o', 'n'], has_arg := 1,
      flag := none, val := chr 'D' },
    { name := ['s', 'e', 'r', 'i', 'a', 'l'], has_arg := 1, flag := none, val := chr 'S' },
    { name := ['i', 'n', 't', 'e', 'r', 'f', 'a', 'c', 'e'], has_arg := 1, flag := none,
      val := chr 'I' },
    { name := ['r', 'e', 's', 'e', 't'], has_arg := 0, flag := none, val := chr 'R' } ]

/-! ## `common_ftdi_init` -/

/-- What `ftdi_usb_find_all` hands back, after libftdi's documentation: a
negative error code `-(n+1)`, or the list of devices found, whose length is
the return value. -/
inductive FindAll where
  | error (n : Nat)
  | devices (devs : List Dev)
  deriving DecidableEq, Repr

/-- The return value of `ftdi_usb_find_all`. -/
def FindAll.ret : FindAll → Int
  | .error n => -((n : Int) + 1)
  | .devices devs => devs.length

/-- The behaviour of libftdi in one run: what each call returns for the
arguments it is given. -/
structure Driver where
  ftdi_new : Option Ctx
  ftdi_set_interface : Ctx → Int → Int
  ftdi_usb_find_all : Ctx → Nat → Nat → FindAll
  ftdi_usb_open_dev : Ctx → Dev → Int
  ftdi_usb_open_desc : Ctx → Nat → Nat → Option (List Char) → Option (List Char) → Int
  ftdi_usb_reset : Ctx → Int

/-- How a run of `common_ftdi_init` ends. -/
inductive InitOutcome where
  /-- The function returned this pointer (`none` is `NULL`). -/
  | returned (ftdi : Option Ctx)
  /-- The process was terminated through `p_exit`. -/
  | exited (status : Int)
  deriving DecidableEq, Repr

/-- The events and the outcome of a run of `common_ftdi_init`. -/
structure InitRun where
  trace : List Event
  outcome : InitOutcome
  deriving DecidableEq, Repr

/-- Lines 150-158: the optional reset and the final `return ftdi`, after the
events `t` of a successful open. -/
def reset_chip (drv : Driver) (cfg : Config) (ftdi : Ctx) (t : List Event) : InitRun :=
  if cfg.reset ≠ 0 then
    let r := drv.ftdi_usb_reset ftdi
    if r ≠ 0 then
      { trace := t ++ Event.ftdi_usb_reset ftdi r :: Event.stderr Diag.reset_failed ::
          (p_exit EXIT_FAILURE).1,
        outcome := InitOutcome.exited EXIT_FAILURE }
    else
      { trace := t ++ [Event.ftdi_usb_reset ftdi r], outcome := InitOutcome.returned (some ftdi) }
  else
    { trace := t, outcome := InitOutcome.returned (some ftdi) }

/-- The function `common_ftdi_init()` (lines 114-159), reading the globals
`cfg` and calling into the library `drv`. -/
def common_ftdi_init (drv : Driver) (cfg : Config) : InitRun :=
  match drv.ftdi_new with
  | none =>
    { trace := [Event.ftdi_new none, Event.stderr Diag.ftdi_new_failed],
      outcome := InitOutcome.returned none }
  | some ftdi =>
    let err := drv.ftdi_set_interface ftdi cfg.interface
    let t1 := [Event.ftdi_new (some ftdi), Event.ftdi_set_interface ftdi cfg.interface err]
    if err < 0 then
      { trace := t1 ++ [Event.stderr (Diag.set_interface_failed err)],
        outcome := InitOutcome.returned none }
    else if cfg.usb_vid = 0 ∧ cfg.usb_pid = 0 then
      let found := drv.ftdi_usb_find_all ftdi cfg.usb_vid cfg.usb_pid
      let t2 := t1 ++ [Event.ftdi_usb_find_all ftdi cfg.usb_vid cfg.usb_pid found.ret]
      match found with
      | FindAll.devices (dev :: _) =>
        let err := drv.ftdi_usb_open_dev ftdi dev
        let t3 := t2 ++ [Event.ftdi_usb_open_dev ftdi dev err, Event.ftdi_list_free]
        if err < 0 then
          { trace := t3 ++ [Event.stderr Diag.open_failed],
            outcome := InitOutcome.returned none }
        else reset_chip drv cfg ftdi t3
      | _ =>
        { trace := t2 ++ [Event.stderr Diag.no_matching_device],
          outcome := InitOutcome.returned none }
    else
      let err := drv.ftdi_usb_open_desc ftdi cfg.usb_vid cfg.usb_pid cfg.usb_description
        cfg.usb_serial
      let t2 := t1 ++ [Event.ftdi_usb_open_desc ftdi cfg.usb_vid cfg.usb_pid
        cfg.usb_description cfg.usb_serial err]
      if err < 0 then
        { trace := t2 ++ [Event.stderr Diag.open_failed],
          outcome := InitOutcome.returned none }
      else reset_chip drv cfg ftdi t2

/-! ## Vocabulary of the properties -/

/-- The hexadecimal word of `v`: four hexadecimal digits, most significant
first (`0403` for `0x0403`). -/
def hexWord (v : Nat) : List Char :=
  [Nat.digitChar (v / 4096 % 16), Nat.digitChar (v / 256 % 16),
   Nat.digitChar (v / 16 % 16), Nat.digitChar (v % 16)]

/-- The command line argument `--vid=ID` for the hexadecimal word of `v`. -/
def vidArg (v : Nat) : List Char := ['-', '-', 'v', 'i', 'd', '='] ++ hexWord v

/-- The command line argument `--pid=ID` for the hexadecimal word of `p`. -/
def pidArg (p : Nat) : List Char := ['-', '-', 'p', 'i', 'd', '='] ++ hexWord p

/-- The command line argument `--interface=N` with `N` written in decimal. -/
def interfaceArg (n : Nat) : List Char :=
  ['-', '-', 'i', 'n', 't', 'e', 'r', 'f', 'a', 'c', 'e', '='] ++ Nat.toDigits 10 n

/-- The character is a hexadecimal digit. -/
def isHexDigit (c : Char) : Bool := (digitOf 16 c).isSome

/-- The character is a decimal digit. -/
def isDecDigit (c : Char) : Bool := (digitOf 10 c).isSome

/-- The event is a call of the exit callback. -/
def Event.isExit : Event → Bool
  | .p_exit _ => true
  | _ => false

/-- The event is a line written to `stderr`. -/
def Event.isStderr : Event → Bool
  | .stderr _ => true
  | _ => false

/-- The event is the usage text or the caller's help text. -/
def Event.isHelp : Event → Bool
  | .usage => true
  | .p_help => true
  | _ => false

/-- The event is a call of the caller's option handler. -/
def Event.isOffer : Event → Bool
  | .p_options _ _ _ => true
  | _ => false

/-- The event is a call of `ftdi_usb_reset`. -/
def Event.isReset : Event → Bool
  | .ftdi_usb_reset _ _ => true
  | _ => false

/-- The event is an open call (`ftdi_usb_open_dev` or `ftdi_usb_open_desc`)
that returned success, a value that is not negative. -/
def Event.isOpenOk : Event → Bool
  | .ftdi_usb_open_dev _ _ ret => decide (0 ≤ ret)
  | .ftdi_usb_open_desc _ _ _ _ _ ret => decide (0 ≤ ret)
  | _ => false

/-- The event is an open call that returned failure, a negative value. -/
def Event.isOpenFail : Event → Bool
  | .ftdi_usb_open_dev _ _ ret => decide (ret < 0)
  | .ftdi_usb_open_desc _ _ _ _ _ ret => decide (ret < 0)
  | _ => false

/-- The event belongs to the enumeration path: `ftdi_usb_find_all`, or
`ftdi_usb_open_dev` on a list entry. -/
def Event.isEnumerate : Event → Bool
  | .ftdi_usb_find_all _ _ _ _ => true
  | .ftdi_usb_open_dev _ _ _ => true
  | _ => false

/-- The event is a call of `ftdi_usb_open_desc`. -/
def Event.isOpenDesc : Event → Bool
  | .ftdi_usb_open_desc _ _ _ _ _ _ => true
  | _ => false

/-- The event is a device-resolution step that failed: `ftdi_new` returned
null, `ftdi_set_interface` returned a negative value, `ftdi_usb_find_all`
returned fewer than 1 device, or an open call returned a negative value. -/
def Event.isResolutionFailure : Event → Bool
  | .ftdi_new none => true
  | .ftdi_set_interface _ _ ret => decide (ret < 0)
  | .ftdi_usb_find_all _ _ _ ret => decide (ret < 1)
  | .ftdi_usb_open_dev _ _ ret => decide (ret < 0)
  | .ftdi_usb_open_desc _ _ _ _ _ ret => decide (ret < 0)
  | _ => false

/-- The event is an open call, `ftdi_usb_open_dev` or `ftdi_usb_open_desc`. -/
def Event.isOpen : Event → Bool
  | .ftdi_usb_open_dev _ _ _ => true
  | .ftdi_usb_open_desc _ _ _ _ _ _ => true
  | _ => false

/-- A caller handler without state that claims no option. -/
def claimNothing : Handler Unit := fun s _ _ => (0, s)

/-- A library in which every call succeeds, with one device attached. -/
def driverOk : Driver :=
  { ftdi_new := some 1
    ftdi_set_interface := fun _ _ => 0
    ftdi_usb_find_all := fun _ _ _ => FindAll.devices [7]
    ftdi_usb_open_dev := fun _ _ => 0
    ftdi_usb_open_desc := fun _ _ _ _ _ => 0
    ftdi_usb_reset := fun _ => 0 }

/-- A library that finds no device. -/
def driverNoDevice : Driver :=
  { driverOk with ftdi_usb_find_all := fun _ _ _ => FindAll.devices [] }

/-- The element `argv[0]` used in the examples. -/
def progName : List Char := ['f', 't', 'd', 'i']

/-- The state at process start: the initial globals, `errno` zero. -/
def State.initial : State := { cfg := Config.default, errno := 0 }

/-- The argument `100000001`: the hexadecimal number `2^32 + 1`. -/
def hexOverflow32 : List Char := ['1', '0', '0', '0', '0', '0', '0', '0', '1']

/-- The argument `4294967297`: the decimal number `2^32 + 1`. -/
def decOverflow32 : List Char := ['4', '2', '9', '4', '9', '6', '7', '2', '9', '7']

/-- The command line `prog --vid=100000001`. -/
def argvVidOverflow : List (List Char) :=
  [progName, ['-', '-', 'v', 'i', 'd', '='] ++ hexOverflow32]

/-- The command line `prog --pid=100000001`. -/
def argvPidOverflow : List (List Char) :=
  [progName, ['-', '-', 'p', 'i', 'd', '='] ++ hexOverflow32]

/-- The command line `prog --vid=0403 --vid=zz`. -/
def argvVidJunk : List (List Char) :=
  [progName, ['-', '-', 'v', 'i', 'd', '=', '0', '4', '0', '3'],
    ['-', '-', 'v', 'i', 'd', '=', 'z', 'z']]

/-- The command line `prog --interface=4294967297`. -/
def argvInterfaceOverflow : List (List Char) :=
  [progName, ['-', '-', 'i', 'n', 't', 'e', 'r', 'f', 'a', 'c', 'e', '='] ++ decOverflow32]

/-- The command line `prog --interface=9`. -/
def argvInterfaceNine : List (List Char) :=
  [progName, ['-', '-', 'i', 'n', 't', 'e', 'r', 'f', 'a', 'c', 'e', '=', '9']]

/-- The command line `prog --vid=0`. -/
def argvVidZero : List (List Char) :=
  [progName, ['-', '-', 'v', 'i', 'd', '=', '0']]

/-- The events up to and including a successful open on the enumeration path. -/
def enumTrace (cfg : Config) (ftdi : Ctx) (err : Int) (dev : Dev) (devs : List Dev)
    (oerr : Int) : List Event :=
  [Event.ftdi_new (some ftdi), Event.ftdi_set_interface ftdi cfg.interface err,
    Event.ftdi_usb_find_all ftdi 0 0 ((devs.length : Int) + 1),
    Event.ftdi_usb_open_dev ftdi dev oerr, Event.ftdi_list_free]

/-- The events up to and including a successful open by descriptor. -/
def descTrace (cfg : Config) (ftdi : Ctx) (err oerr : Int) : List Event :=
  [Event.ftdi_new (some ftdi), Event.ftdi_set_interface ftdi cfg.interface err,
    Event.ftdi_usb_open_desc ftdi cfg.usb_vid cfg.usb_pid cfg.usb_description
      cfg.usb_serial oerr]

/-- The predicate `p` holds of the first character of `l`, if there is one. -/
def headSat (p : Char → Bool) (l : List Char) : Bool :=
  match l with
  | [] => true
  | c :: _ => p c

/-- The character is a sign, `-` or `+`. -/
def isSign (c : Char) : Bool := c.toNat == 45 || c.toNat == 43

/-- The string starts with `0x` or `0X` followed by a hexadecimal digit. -/
def startsHexMark (l : List Char) : Bool :=
  match l with
  | z :: x :: d :: _ => z.toNat == 48 && (x.toNat == 120 || x.toNat == 88) && isHexDigit d
  | _ => false

/-- The sign characters `sg` hold a minus. -/
def isNeg (sg : List Char) : Bool := sg.any (fun c => c.toNat == 45)

/-- The parts of an argument as a conversion in base 16 reads it: white space
`ws`, at most one sign `sg`, an optional mark `px` (`0x` or `0X`, only before
a hexadecimal digit), the hexadecimal digits `ds` (possibly none) and the rest
`r`, which starts with no hexadecimal digit. No part could have taken more:
what follows the white space starts with no white space, what follows an
absent sign starts with no sign, and what follows an absent mark starts with no
mark. -/
def HexForm (ws sg px ds r : List Char) : Prop :=
  (∀ c ∈ ws, isspace c = true) ∧
  (sg.length ≤ 1 ∧ ∀ c ∈ sg, isSign c = true) ∧
  (px = [] ∨ (px.length = 2 ∧ startsHexMark (px ++ ds) = true)) ∧
  (∀ c ∈ ds, isHexDigit c = true) ∧
  headSat (fun c => !isHexDigit c) r = true ∧
  headSat (fun c => !isspace c) (sg ++ px ++ ds ++ r) = true ∧
  (sg = [] → headSat (fun c => !isSign c) (px ++ ds ++ r) = true) ∧
  (px = [] → startsHexMark (ds ++ r) = false)

/-- The number an argument of the form `ws sg px ds r` denotes: the value of
the digits `ds`, negated after a minus sign. -/
def hexFormValue (sg ds : List Char) : Int :=
  if isNeg sg then -(scanDigits 16 0 ds : Int) else (scanDigits 16 0 ds : Int)

/-- The result of `strtol` for a magnitude `mag` read after a sign. -/
def clampLong (dm : DataModel) (neg : Bool) (mag : Nat) : Int × Bool :=
  if neg then
    if (mag : Int) > -(LONG_MIN dm) then (LONG_MIN dm, true) else (-(mag : Int), false)
  else
    if (mag : Int) > LONG_MAX dm then (LONG_MAX dm, true) else ((mag : Int), false)

/-- The run printed exactly one diagnostic, returned the null handle, and
neither called `p_exit` nor issued a reset. -/
def InitRun.failedQuietly (run : InitRun) : Prop :=
  run.outcome = InitOutcome.returned none ∧
  run.trace.countP Event.isStderr = 1 ∧
  ∀ e ∈ run.trace, e.isExit = false ∧ e.isReset = false

/-- A library in which `ftdi_new` returns null. -/
def driverNoContext : Driver := { driverOk with ftdi_new := none }

/-- A library in which `ftdi_set_interface` fails. -/
def driverBadInterface : Driver := { driverOk with ftdi_set_interface := fun _ _ => -1 }

/-- A library in which both open calls fail. -/
def driverOpenFails : Driver :=
  { driverOk with ftdi_usb_open_dev := fun _ _ => -3, ftdi_usb_open_desc := fun _ _ _ _ _ => -3 }

/-- The configuration after `--vid=0403 --pid=6001`. -/
def cfgFtdi : Config := { Config.default with usb_vid := 0x0403, usb_pid := 0x6001 }

/-- A caller handler without state that claims `-h` and nothing else. -/
def claimHelp : Handler Unit := fun s c _ => (if c = chr 'h' then 1 else 0, s)

/-- The command line `prog --reset --help --vid=0403`. -/
def argvResetHelpVid : List (List Char) :=
  [progName, ['-', '-', 'r', 'e', 's', 'e', 't'], ['-', '-', 'h', 'e', 'l', 'p'],
    ['-', '-', 'v', 'i', 'd', '=', '0', '4', '0', '3']]

/-! ## Facts about the C library model -/

/-- A value in the range of a non-negative `int` is unchanged by `(int)`. -/
theorem toInt32_of_small (x : Int) (h0 : 0 ≤ x) (h1 : x < 2 ^ 31) : toInt32 x = x := by
  unfold toInt32
  omega

/-- A value up to `0xFFFF` is unchanged by `(uint16_t)`. -/
theorem toUInt16_of_small (v : Nat) (h : v ≤ 0xffff) : toUInt16 (v : Int) = v := by
  unfold toUInt16
  omega

/-- In both data models `LONG_MAX` is at least `2^31 - 1`. -/
theorem LONG_MAX_ge (dm : DataModel) : (2 : Int) ^ 31 - 1 ≤ LONG_MAX dm := by
  cases dm <;> simp [LONG_MAX, DataModel.longBits]

/-- The digit character of `d` is read back as `d` in base 16. -/
theorem digitOf_digitChar (d : Nat) (h : d < 16) : digitOf 16 (Nat.digitChar d) = some d := by
  interval_cases d <;> rfl

/-- A hexadecimal digit character is no white space, no sign and no `x`. -/
theorem digitChar_plain (d : Nat) (h : d < 16) :
    isspace (Nat.digitChar d) = false ∧ (Nat.digitChar d).toNat ≠ 45 ∧
      (Nat.digitChar d).toNat ≠ 43 ∧ (Nat.digitChar d).toNat ≠ 120 ∧
      (Nat.digitChar d).toNat ≠ 88 := by
  interval_cases d <;> decide

/-- The hexadecimal word of `v` is read back as `v`. -/
theorem scanDigits_hexWord (v : Nat) (h : v ≤ 0xffff) : scanDigits 16 0 (hexWord v) = v := by
  simp only [hexWord, scanDigits, digitOf_digitChar _ (Nat.mod_lt _ (by norm_num : 16 > 0))]
  omega

/-- On the hexadecimal word of `v`, `strtol` in base 16 returns `v` and leaves `errno`. -/
theorem strtol_hexWord (dm : DataModel) (v : Nat) (h : v ≤ 0xffff) :
    strtol dm (hexWord v) 16 = ((v : Int), false) := by
  have h3 := digitChar_plain (v / 4096 % 16) (Nat.mod_lt _ (by norm_num))
  have h2 := digitChar_plain (v / 256 % 16) (Nat.mod_lt _ (by norm_num))
  have hs := scanDigits_hexWord v h
  have hm := LONG_MAX_ge dm
  unfold strtol
  unfold hexWord at hs ⊢
  simp only [List.dropWhile, h3.1, skipHexPrefix, h3.2.1, h3.2.2.1, h2.2.2.2.1, h2.2.2.2.2,
    or_self, false_and, and_false, if_false, decide_False, Bool.false_eq_true, hs]
  have : ¬ ((v : Int) > LONG_MAX dm) := by
    have : (v : Int) ≤ 0xffff := by exact_mod_cast h
    omega
  simp [this]

/-- The hexadecimal digits are `0-9`, `a-f` and `A-F`. -/
theorem isHexDigit_iff (c : Char) :
    isHexDigit c = true ↔
      (48 ≤ c.toNat ∧ c.toNat ≤ 57) ∨ (97 ≤ c.toNat ∧ c.toNat ≤ 102) ∨
        (65 ≤ c.toNat ∧ c.toNat ≤ 70) := by
  unfold isHexDigit digitOf digitVal
  split_ifs with h1 h2 h3 <;> simp <;> omega

/-- A character that is no hexadecimal digit has no digit value in base 16. -/
theorem digitOf_none_of_not_hex (c : Char) (h : isHexDigit c = false) : digitOf 16 c = none := by
  unfold isHexDigit at h
  simpa using h

/-- Reading digits stops at the first character that is no digit: what
follows the digits `ds` does not change the value. -/
theorem scanDigits_append_stop (base : Nat) (ds r : List Char)
    (hds : ∀ c ∈ ds, (digitOf base c).isSome = true)
    (hr : ∀ c ∈ r.head?, digitOf base c = none) (acc : Nat) :
    scanDigits base acc (ds ++ r) = scanDigits base acc ds := by
  induction ds generalizing acc with
  | nil =>
    cases r with
    | nil => rfl
    | cons c r => simp [scanDigits, hr c (by simp)]
  | cons d ds ih =>
    have hd := hds d (by simp)
    obtain ⟨k, hk⟩ := Option.isSome_iff_exists.mp hd
    simp only [List.cons_append, scanDigits, hk]
    exact ih (fun c hc => hds c (by simp [hc])) _

/-- The decimal digits are `0-9`. -/
theorem isDecDigit_iff (c : Char) :
    isDecDigit c = true ↔ 48 ≤ c.toNat ∧ c.toNat ≤ 57 := by
  unfold isDecDigit digitOf digitVal
  split_ifs with h1 h2 h3 <;> simp <;> omega

/-- The value `strtol` reads in base 10 from a string of decimal digits. -/
theorem strtol_dec_digits (dm : DataModel) (ds : List Char)
    (hds : ∀ c ∈ ds, isDecDigit c = true) :
    strtol dm ds 10 =
      if (scanDigits 10 0 ds : Int) > LONG_MAX dm then (LONG_MAX dm, true)
      else ((scanDigits 10 0 ds : Int), false) := by
  have hskip : skipHexPrefix 10 ds = ds := by
    unfold skipHexPrefix
    split <;> simp
  cases ds with
  | nil => cases dm <;> rfl
  | cons d ds0 =>
    have hd := (isDecDigit_iff d).mp (hds d (by simp))
    have hsp : isspace d = false := by
      unfold isspace
      simp
      omega
    have hm : d.toNat ≠ 45 := by omega
    have hp : d.toNat ≠ 43 := by omega
    simp only [strtol, List.dropWhile, hsp, hm, hp, false_or, or_self,
      if_false, decide_False, Bool.false_eq_true, hskip]

/-! ## Facts about `common_options` -/

/-- What the `'I'` case does with a string of decimal digits whose value fits
an `int`: the value is stored in `interface` first and checked afterwards. -/
theorem switch_I_decimal (dm : DataModel) (st : State) (ds : List Char)
    (hds : ∀ c ∈ ds, isDecDigit c = true) (hlt : scanDigits 10 0 ds < 2 ^ 31) :
    common_switch dm (chr 'I') (some ds) st =
      if scanDigits 10 0 ds ≤ 4 then
        ({ st with cfg := { st.cfg with interface := scanDigits 10 0 ds } }, [], Flow.next)
      else
        ({ st with cfg := { st.cfg with interface := scanDigits 10 0 ds } },
          [Event.stderr Diag.invalid_interface, Event.p_exit 1], Flow.exit 1) := by
  have hm := LONG_MAX_ge dm
  have hv : ((scanDigits 10 0 ds : Nat) : Int) < 2 ^ 31 := by exact_mod_cast hlt
  have hL : ¬ ((scanDigits 10 0 ds : Int) > LONG_MAX dm) := by omega
  have h32 : toInt32 (scanDigits 10 0 ds : Int) = scanDigits 10 0 ds :=
    toInt32_of_small _ (by omega) hv
  have hc1 : ¬ (chr 'I' = chr 'V') := by decide
  have hc2 : ¬ (chr 'I' = chr 'P') := by decide
  have hc3 : ¬ (chr 'I' = chr 'D') := by decide
  have hc4 : ¬ (chr 'I' = chr 'S') := by decide
  simp only [common_switch, hc1, hc2, hc3, hc4, if_false, atoi, strtol_dec_digits dm ds hds, hL,
    h32]
  by_cases hle : scanDigits 10 0 ds ≤ 4
  · have : ¬ (((scanDigits 10 0 ds : Nat) : Int) < 0 ∨ ((scanDigits 10 0 ds : Nat) : Int) > 4) := by
      omega
    simp [this, hle]
  · have : (((scanDigits 10 0 ds : Nat) : Int) < 0 ∨ ((scanDigits 10 0 ds : Nat) : Int) > 4) := by
      omega
    simp [this, hle, p_exit]

/-- The `'V'` case on the hexadecimal word of `v`: `v` is stored, nothing is printed. -/
theorem switch_V_hexWord (dm : DataModel) (st : State) (v : Nat) (h : v ≤ 0xffff)
    (he : st.errno ≠ ERANGE) :
    common_switch dm (chr 'V') (some (hexWord v)) st =
      ({ st with cfg := { st.cfg with usb_vid := v } }, [], Flow.next) := by
  have hv : (v : Int) ≤ 0xffff := by exact_mod_cast h
  have h32 : toInt32 (v : Int) = v := toInt32_of_small _ (by omega) (by omega)
  simp only [common_switch, strtol_hexWord dm v h, h32, toUInt16_of_small v h]
  simp [he]
  omega

/-- The `'P'` case on the hexadecimal word of `p`: `p` is stored, nothing is printed. -/
theorem switch_P_hexWord (dm : DataModel) (st : State) (v : Nat) (h : v ≤ 0xffff)
    (he : st.errno ≠ ERANGE) :
    common_switch dm (chr 'P') (some (hexWord v)) st =
      ({ st with cfg := { st.cfg with usb_pid := v } }, [], Flow.next) := by
  have hv : (v : Int) ≤ 0xffff := by exact_mod_cast h
  have h32 : toInt32 (v : Int) = v := toInt32_of_small _ (by omega) (by omega)
  have hc : ¬ (chr 'P' = chr 'V') := by decide
  simp only [common_switch, hc, if_false, strtol_hexWord dm v h, h32, toUInt16_of_small v h]
  simp [he]
  omega

/-- The `'I'` case on a number up to 4 written in decimal: it is stored, nothing
is printed. -/
theorem switch_I_small (dm : DataModel) (st : State) (n : Nat) (h : n ≤ 4) :
    common_switch dm (chr 'I') (some (Nat.toDigits 10 n)) st =
      ({ st with cfg := { st.cfg with interface := n } }, [], Flow.next) := by
  interval_cases n <;> cases dm <;> rfl

/-- What `getopt_long` returns on `--vid=v --pid=p --interface=n` when the long
option table starts with the common entries. -/
theorem scan_common_args (opts : List Char) (extra : List option)
    (v p n : Nat) :
    getopt_scan opts (COMMON_LONG_OPTS ++ extra) false
        [vidArg v, pidArg p, interfaceArg n] =
      [(chr 'V', some (hexWord v)), (chr 'P', some (hexWord p)),
       (chr 'I', some (Nat.toDigits 10 n))] := by
  simp [getopt_scan, vidArg, pidArg, interfaceArg, scanLong, findLong, COMMON_LONG_OPTS,
    List.takeWhile, List.dropWhile, option.result]

/-- One pass of the loop for an option the handler does not claim: the offer,
then what the `switch` does. -/
theorem body_of_unclaimed {σ : Type} (dm : DataModel) (h : Handler σ) (c : Int)
    (optarg : Option (List Char)) (st : State) (hs : σ) (hu : (h hs c optarg).1 = 0) :
    common_options_body dm h c optarg st hs =
      ((common_switch dm c optarg st).1, (h hs c optarg).2,
        Event.p_options c optarg 0 :: (common_switch dm c optarg st).2.1,
        (common_switch dm c optarg st).2.2) := by
  simp [common_options_body, hu]

/-- The `switch` never calls the handler. -/
theorem switch_trace_no_offer (dm : DataModel) (c : Int) (optarg : Option (List Char))
    (st : State) : ∀ e ∈ (common_switch dm c optarg st).2.1, e.isOffer = false := by
  unfold common_switch
  repeat' split
  all_goals simp only [p_exit, common_help]
  all_goals (repeat' split)
  all_goals simp [Event.isOffer]

/-- The `switch` writes `usb_vid` and `usb_pid` only for `'V'` and `'P'`. -/
theorem switch_keeps_ids (dm : DataModel) (c : Int) (optarg : Option (List Char)) (st : State)
    (hV : c ≠ chr 'V') (hP : c ≠ chr 'P') :
    (common_switch dm c optarg st).1.cfg.usb_vid = st.cfg.usb_vid ∧
    (common_switch dm c optarg st).1.cfg.usb_pid = st.cfg.usb_pid := by
  unfold common_switch
  simp only [hV, hP, if_false]
  repeat' split
  all_goals simp

/-- One pass of the loop writes `usb_vid` and `usb_pid` only for `'V'` and `'P'`. -/
theorem body_keeps_ids {σ : Type} (dm : DataModel) (h : Handler σ) (c : Int)
    (optarg : Option (List Char)) (st : State) (hs : σ)
    (hV : c ≠ chr 'V') (hP : c ≠ chr 'P') :
    (common_options_body dm h c optarg st hs).1.cfg.usb_vid = st.cfg.usb_vid ∧
    (common_options_body dm h c optarg st hs).1.cfg.usb_pid = st.cfg.usb_pid := by
  by_cases hc : (h hs c optarg).1 = 0
  · simpa [common_options_body, hc] using switch_keeps_ids dm c optarg st hV hP
  · simp [common_options_body, hc]

/-- A run over options other than `'V'` and `'P'` leaves `usb_vid` and `usb_pid`
as they were. -/
theorem loop_keeps_ids {σ : Type} (dm : DataModel) (h : Handler σ)
    (l : List (Int × Option (List Char)))
    (hl : ∀ o ∈ l, o.1 ≠ chr 'V' ∧ o.1 ≠ chr 'P') (st : State) (hs : σ) :
    (common_options_loop dm h l st hs).state.cfg.usb_vid = st.cfg.usb_vid ∧
    (common_options_loop dm h l st hs).state.cfg.usb_pid = st.cfg.usb_pid := by
  induction l generalizing st hs with
  | nil => simp [common_options_loop]
  | cons o l ih =>
    obtain ⟨c, optarg⟩ := o
    have ho := hl (c, optarg) (by simp)
    have hb := body_keeps_ids dm h c optarg st hs ho.1 ho.2
    by_cases hgt : c > -1
    · cases hf : (common_options_body dm h c optarg st hs).2.2.2 with
      | next =>
        have := ih (fun o ho => hl o (by simp [ho])) (common_options_body dm h c optarg st hs).1
          (common_options_body dm h c optarg st hs).2.1
        simp only [common_options_loop, hgt, if_true, hf]
        rw [this.1, this.2]
        exact hb
      | exit status =>
        simp only [common_options_loop, hgt, if_true, hf]
        exact hb
      | undefined =>
        simp only [common_options_loop, hgt, if_true, hf]
        exact hb
    · simp [common_options_loop, hgt]

/-- A value in the range of `int` is unchanged by `(int)`. -/
theorem toInt32_of_int (x : Int) (h0 : -(2 ^ 31) ≤ x) (h1 : x < 2 ^ 31) : toInt32 x = x := by
  unfold toInt32
  omega

/-- In both data models `LONG_MIN` is at most `-2^31`. -/
theorem LONG_MIN_le (dm : DataModel) : LONG_MIN dm ≤ -(2 : Int) ^ 31 := by
  cases dm <;> simp [LONG_MIN, DataModel.longBits]

/-- Dropping while `p` holds removes a part on which `p` holds throughout when
what follows starts with a character on which it fails. -/
theorem dropWhile_append_all (p : Char → Bool) (ws t : List Char)
    (hws : ∀ c ∈ ws, p c = true) (ht : headSat (fun c => !p c) t = true) :
    (ws ++ t).dropWhile p = t := by
  induction ws with
  | nil =>
    cases t with
    | nil => rfl
    | cons c t =>
      simp only [headSat, Bool.not_eq_true'] at ht
      simp [List.dropWhile, ht]
  | cons w ws ih =>
    have hw := hws w (by simp)
    simp only [List.cons_append, List.dropWhile, hw]
    exact ih (fun c hc => hws c (by simp [hc]))

/-- What is left after dropping while `p` holds starts with a character on
which `p` fails. -/
theorem headSat_dropWhile (p : Char → Bool) (l : List Char) :
    headSat (fun c => !p c) (l.dropWhile p) = true := by
  induction l with
  | nil => rfl
  | cons c l ih =>
    by_cases hc : p c = true
    · simpa [List.dropWhile, hc] using ih
    · simp only [Bool.not_eq_true] at hc
      simp [List.dropWhile, hc, headSat]

/-- Taking while `p` holds yields characters on which `p` holds. -/
theorem all_takeWhile (p : Char → Bool) (l : List Char) :
    ∀ c ∈ l.takeWhile p, p c = true := by
  induction l with
  | nil => simp
  | cons c l ih =>
    by_cases hc : p c = true
    · intro x hx
      simp only [List.takeWhile, hc, List.mem_cons] at hx
      rcases hx with rfl | hx
      · exact hc
      · exact ih x hx
    · simp only [Bool.not_eq_true] at hc
      simp [List.takeWhile, hc]

/-- The digits that a conversion in base 16 reads from the part of an argument
after the sign are the digits `ds` of its form. -/
theorem scan_after_sign (px ds r : List Char)
    (hpx : px = [] ∨ (px.length = 2 ∧ startsHexMark (px ++ ds) = true))
    (hds : ∀ c ∈ ds, isHexDigit c = true)
    (hr : headSat (fun c => !isHexDigit c) r = true)
    (hmark : px = [] → startsHexMark (ds ++ r) = false) :
    scanDigits 16 0 (skipHexPrefix 16 (px ++ ds ++ r)) = scanDigits 16 0 ds := by
  have hstop : ∀ c ∈ r.head?, digitOf 16 c = none := by
    intro c hc
    cases r with
    | nil => simp at hc
    | cons c0 r0 =>
      simp at hc
      subst hc
      simp only [headSat, Bool.not_eq_true'] at hr
      exact digitOf_none_of_not_hex _ hr
  have hscan := scanDigits_append_stop 16 ds r
    (fun c hc => by simpa [isHexDigit] using hds c hc) hstop 0
  rcases hpx with rfl | ⟨hlen, hm⟩
  · have hm := hmark rfl
    have hskip : skipHexPrefix 16 (ds ++ r) = ds ++ r := by
      unfold skipHexPrefix
      split
      · rename_i z x d rest heq
        rw [heq] at hm
        simp only [startsHexMark, Bool.and_eq_false_imp, Bool.and_eq_true, beq_iff_eq,
          Bool.or_eq_true] at hm
        split
        · rename_i hcond
          have := hm ⟨hcond.2.1, hcond.2.2.1⟩
          have h2 : isHexDigit d = true := hcond.2.2.2
          simp [h2] at this
        · rfl
      · rfl
    simp only [List.nil_append, hskip, hscan]
  · match px, hlen with
    | [z, x], _ =>
      cases ds with
      | nil => simp [startsHexMark] at hm
      | cons d ds0 =>
        simp only [List.cons_append, List.nil_append, startsHexMark, Bool.and_eq_true,
          beq_iff_eq, Bool.or_eq_true] at hm
        have hskip : skipHexPrefix 16 (z :: x :: (d :: ds0 ++ r)) = d :: ds0 ++ r := by
          have h2 : (digitOf 16 d).isSome = true := hm.2
          simp [skipHexPrefix, hm.1.1, hm.1.2, h2]
        simp only [List.cons_append, List.nil_append, List.append_assoc]
        rw [show z :: x :: d :: (ds0 ++ r) = z :: x :: (d :: ds0 ++ r) from rfl, hskip]
        exact hscan

/-- What `strtol` in base 16 returns on an argument of the form
`ws sg px ds r`: the value of the digits `ds` with the sign of `sg`, clamped to
the range of `long`. -/
theorem strtol_hexForm (dm : DataModel) (ws sg px ds r : List Char)
    (hform : HexForm ws sg px ds r) :
    strtol dm (ws ++ sg ++ px ++ ds ++ r) 16 =
      clampLong dm (isNeg sg) (scanDigits 16 0 ds) := by
  obtain ⟨hws, ⟨hsgl, hsg⟩, hpx, hds, hr, hsp, hnosign, hmark⟩ := hform
  have hscan := scan_after_sign px ds r hpx hds hr hmark
  have e0 : ws ++ sg ++ px ++ ds ++ r = ws ++ (sg ++ px ++ ds ++ r) := by
    simp [List.append_assoc]
  have e1 : (ws ++ (sg ++ px ++ ds ++ r)).dropWhile isspace = sg ++ px ++ ds ++ r :=
    dropWhile_append_all isspace ws _ hws hsp
  rw [e0]
  unfold strtol
  simp only [e1]
  match sg, hsgl with
  | [], _ =>
    have hn := hnosign rfl
    simp only [List.nil_append] at hn ⊢
    cases hu : px ++ ds ++ r with
    | nil =>
      rw [hu] at hscan
      simp only [isNeg, List.any_nil, clampLong, ← hscan]
    | cons c u =>
      rw [hu] at hn hscan
      simp only [headSat, isSign, Bool.not_eq_true', Bool.or_eq_false_iff, beq_eq_false_iff_ne,
        ne_eq] at hn
      simp only [hn.1, hn.2, or_self, if_false, decide_False, hscan, isNeg, List.any_nil,
        clampLong]
  | [c], _ =>
    have hc := hsg c (by simp)
    simp only [isSign, Bool.or_eq_true, beq_iff_eq] at hc
    have e2 : [c] ++ px ++ ds ++ r = c :: (px ++ ds ++ r) := by simp
    simp only [e2, hc, if_true, hscan, isNeg, List.any_cons, List.any_nil, Bool.or_false,
      clampLong]
    by_cases h45 : c.toNat = 45 <;> simp [h45]

/-- Every argument has the form `ws sg px ds r`. -/
theorem hexForm_exists (a : List Char) :
    ∃ ws sg px ds r, a = ws ++ sg ++ px ++ ds ++ r ∧ HexForm ws sg px ds r := by
  have key : ∀ (sg a2 : List Char), a.dropWhile isspace = sg ++ a2 →
      (sg.length ≤ 1 ∧ ∀ c ∈ sg, isSign c = true) →
      (sg = [] → headSat (fun c => !isSign c) a2 = true) →
      ∃ ws sg px ds r, a = ws ++ sg ++ px ++ ds ++ r ∧ HexForm ws sg px ds r := by
    intro sg a2 ha hsg hnosign
    have hsp : headSat (fun c => !isspace c) (sg ++ a2) = true := by
      rw [← ha]
      exact headSat_dropWhile isspace a
    have hsplit : a = a.takeWhile isspace ++ (sg ++ a2) := by
      rw [← ha, List.takeWhile_append_dropWhile]
    by_cases hm : startsHexMark a2 = true
    · match a2, hm with
      | z :: x :: d :: rest, hm =>
        refine ⟨a.takeWhile isspace, sg, [z, x], (d :: rest).takeWhile isHexDigit,
          (d :: rest).dropWhile isHexDigit, ?_, all_takeWhile isspace a, hsg, ?_,
          all_takeWhile isHexDigit _, headSat_dropWhile isHexDigit _, ?_, ?_, ?_⟩
        · rw [List.append_assoc (a.takeWhile isspace ++ sg ++ [z, x]),
            List.takeWhile_append_dropWhile]
          simpa [List.append_assoc] using hsplit
        · right
          have hd : isHexDigit d = true := by
            simp only [startsHexMark, Bool.and_eq_true] at hm
            exact hm.2
          refine ⟨rfl, ?_⟩
          simp only [startsHexMark, Bool.and_eq_true] at hm
          simp [List.takeWhile, hd, startsHexMark, hm.1.1, hm.1.2]
        · rw [List.append_assoc (sg ++ [z, x]), List.takeWhile_append_dropWhile]
          simpa [List.append_assoc] using hsp
        · intro hs
          rw [List.append_assoc [z, x], List.takeWhile_append_dropWhile]
          simpa using hnosign hs
        · intro h
          simp at h
    · simp only [Bool.not_eq_true] at hm
      refine ⟨a.takeWhile isspace, sg, [], a2.takeWhile isHexDigit, a2.dropWhile isHexDigit,
        ?_, all_takeWhile isspace a, hsg, Or.inl rfl, all_takeWhile isHexDigit _,
        headSat_dropWhile isHexDigit _, ?_, ?_, ?_⟩
      · rw [List.append_assoc (a.takeWhile isspace ++ sg ++ []),
          List.takeWhile_append_dropWhile]
        simpa [List.append_assoc] using hsplit
      · rw [List.append_assoc (sg ++ []), List.takeWhile_append_dropWhile]
        simpa using hsp
      · intro hs
        rw [List.nil_append, List.takeWhile_append_dropWhile]
        exact hnosign hs
      · intro _
        rw [List.takeWhile_append_dropWhile]
        exact hm
  cases ha : a.dropWhile isspace with
  | nil => exact key [] [] (by simp [ha]) (by simp) (fun _ => rfl)
  | cons c a1 =>
    by_cases hc : isSign c = true
    · exact key [c] a1 (by simp [ha]) ⟨by simp, by simpa using hc⟩ (fun h => by simp at h)
    · simp only [Bool.not_eq_true] at hc
      exact key [] (c :: a1) (by simp [ha]) (by simp) (fun _ => by simp [headSat, hc])

/-- The `'V'` case on an argument of the form `ws sg px ds r` whose digits
fit an `int`: the number it denotes is stored if it lies in `[0, 0xFFFF]` and
rejected otherwise. -/
theorem switch_V_hexForm (dm : DataModel) (st : State) (ws sg px ds r : List Char)
    (hform : HexForm ws sg px ds r) (he : st.errno ≠ ERANGE)
    (hlt : scanDigits 16 0 ds < 2 ^ 31) :
    common_switch dm (chr 'V') (some (ws ++ sg ++ px ++ ds ++ r)) st =
      if 0 ≤ hexFormValue sg ds ∧ hexFormValue sg ds ≤ 0xffff then
        ({ st with cfg := { st.cfg with usb_vid := (hexFormValue sg ds).toNat } }, [],
          Flow.next)
      else (st, [Event.stderr Diag.invalid_vid, Event.p_exit 1], Flow.exit 1) := by
  have hmax := LONG_MAX_ge dm
  have hmin := LONG_MIN_le dm
  have hv : ((scanDigits 16 0 ds : Nat) : Int) < 2 ^ 31 := by exact_mod_cast hlt
  have hval : strtol dm (ws ++ sg ++ px ++ ds ++ r) 16 = (hexFormValue sg ds, false) := by
    rw [strtol_hexForm dm ws sg px ds r hform]
    unfold clampLong hexFormValue
    by_cases hn : isNeg sg = true
    · have : ¬ ((scanDigits 16 0 ds : Int) > -(LONG_MIN dm)) := by omega
      simp [hn, this]
    · have : ¬ ((scanDigits 16 0 ds : Int) > LONG_MAX dm) := by omega
      simp [hn, this]
  have hrange : -(2 ^ 31) ≤ hexFormValue sg ds ∧ hexFormValue sg ds < 2 ^ 31 := by
    unfold hexFormValue
    split <;> omega
  have h32 : toInt32 (hexFormValue sg ds) = hexFormValue sg ds :=
    toInt32_of_int _ hrange.1 hrange.2
  simp only [common_switch, hval, h32]
  by_cases hin : 0 ≤ hexFormValue sg ds ∧ hexFormValue sg ds ≤ 0xffff
  · have h16 : toUInt16 (hexFormValue sg ds) = (hexFormValue sg ds).toNat := by
      unfold toUInt16
      omega
    have : ¬ (st.errno = ERANGE ∨ hexFormValue sg ds < 0 ∨ hexFormValue sg ds > 0xffff) := by
      omega
    simp [this, hin, he, h16]
  · have : (st.errno = ERANGE ∨ hexFormValue sg ds < 0 ∨ hexFormValue sg ds > 0xffff) := by
      omega
    simp [this, hin, p_exit]

/-- The `'P'` case on an argument of the form `ws sg px ds r` whose digits
fit an `int`: the number it denotes is stored if it lies in `[0, 0xFFFF]` and
rejected otherwise. -/
theorem switch_P_hexForm (dm : DataModel) (st : State) (ws sg px ds r : List Char)
    (hform : HexForm ws sg px ds r) (he : st.errno ≠ ERANGE)
    (hlt : scanDigits 16 0 ds < 2 ^ 31) :
    common_switch dm (chr 'P') (some (ws ++ sg ++ px ++ ds ++ r)) st =
      if 0 ≤ hexFormValue sg ds ∧ hexFormValue sg ds ≤ 0xffff then
        ({ st with cfg := { st.cfg with usb_pid := (hexFormValue sg ds).toNat } }, [],
          Flow.next)
      else (st, [Event.stderr Diag.invalid_pid, Event.p_exit 1], Flow.exit 1) := by
  have hmax := LONG_MAX_ge dm
  have hmin := LONG_MIN_le dm
  have hv : ((scanDigits 16 0 ds : Nat) : Int) < 2 ^ 31 := by exact_mod_cast hlt
  have hval : strtol dm (ws ++ sg ++ px ++ ds ++ r) 16 = (hexFormValue sg ds, false) := by
    rw [strtol_hexForm dm ws sg px ds r hform]
    unfold clampLong hexFormValue
    by_cases hn : isNeg sg = true
    · have : ¬ ((scanDigits 16 0 ds : Int) > -(LONG_MIN dm)) := by omega
      simp [hn, this]
    · have : ¬ ((scanDigits 16 0 ds : Int) > LONG_MAX dm) := by omega
      simp [hn, this]
  have hrange : -(2 ^ 31) ≤ hexFormValue sg ds ∧ hexFormValue sg ds < 2 ^ 31 := by
    unfold hexFormValue
    split <;> omega
  have h32 : toInt32 (hexFormValue sg ds) = hexFormValue sg ds :=
    toInt32_of_int _ hrange.1 hrange.2
  have hc : ¬ (chr 'P' = chr 'V') := by decide
  simp only [common_switch, hc, if_false, hval, h32]
  by_cases hin : 0 ≤ hexFormValue sg ds ∧ hexFormValue sg ds ≤ 0xffff
  · have h16 : toUInt16 (hexFormValue sg ds) = (hexFormValue sg ds).toNat := by
      unfold toUInt16
      omega
    have : ¬ (st.errno = ERANGE ∨ hexFormValue sg ds < 0 ∨ hexFormValue sg ds > 0xffff) := by
      omega
    simp [this, hin, he, h16]
  · have : (st.errno = ERANGE ∨ hexFormValue sg ds < 0 ∨ hexFormValue sg ds > 0xffff) := by
      omega
    simp [this, hin, p_exit]

/-- The events of one pass of the loop: the offer first, then those of the
`switch` if the option was not claimed. -/
theorem body_trace {σ : Type} (dm : DataModel) (h : Handler σ) (c : Int)
    (optarg : Option (List Char)) (st : State) (hs : σ) :
    (common_options_body dm h c optarg st hs).2.2.1 =
      Event.p_options c optarg (h hs c optarg).1 ::
        (if (h hs c optarg).1 ≠ 0 then [] else (common_switch dm c optarg st).2.1) ∧
    (common_options_body dm h c optarg st hs).2.1 = (h hs c optarg).2 := by
  by_cases hc : (h hs c optarg).1 = 0 <;> simp [common_options_body, hc]

/-- A run whose first pass goes on to the next option: the events of that pass
followed by the run over the remaining options. -/
theorem loop_cons_next {σ : Type} (dm : DataModel) (h : Handler σ) (c : Int)
    (optarg : Option (List Char)) (rest : List (Int × Option (List Char))) (st : State) (hs : σ)
    (hgt : c > -1) (hf : (common_options_body dm h c optarg st hs).2.2.2 = Flow.next) :
    common_options_loop dm h ((c, optarg) :: rest) st hs =
      { state := (common_options_loop dm h rest (common_options_body dm h c optarg st hs).1
            (common_options_body dm h c optarg st hs).2.1).state,
        hstate := (common_options_loop dm h rest (common_options_body dm h c optarg st hs).1
            (common_options_body dm h c optarg st hs).2.1).hstate,
        trace := (common_options_body dm h c optarg st hs).2.2.1 ++
          (common_options_loop dm h rest (common_options_body dm h c optarg st hs).1
            (common_options_body dm h c optarg st hs).2.1).trace,
        outcome := (common_options_loop dm h rest (common_options_body dm h c optarg st hs).1
            (common_options_body dm h c optarg st hs).2.1).outcome } := by
  simp [common_options_loop, hgt, hf]

/-- A run whose first pass does not go on: the events of that pass alone. -/
theorem loop_cons_stop {σ : Type} (dm : DataModel) (h : Handler σ) (c : Int)
    (optarg : Option (List Char)) (rest : List (Int × Option (List Char))) (st : State) (hs : σ)
    (hgt : c > -1) (hf : (common_options_body dm h c optarg st hs).2.2.2 ≠ Flow.next) :
    (common_options_loop dm h ((c, optarg) :: rest) st hs).trace =
        (common_options_body dm h c optarg st hs).2.2.1 ∧
    (common_options_loop dm h ((c, optarg) :: rest) st hs).state =
        (common_options_body dm h c optarg st hs).1 ∧
    (common_options_loop dm h ((c, optarg) :: rest) st hs).outcome ≠ Outcome.returned 0 := by
  cases hf1 : (common_options_body dm h c optarg st hs).2.2.2 with
  | next => exact absurd hf1 hf
  | exit status => simp [common_options_loop, hgt, hf1]
  | undefined => simp [common_options_loop, hgt, hf1]

/-- A run over `pre ++ l2` whose part over `pre` reaches the end of `pre` is
that part followed by the run over `l2` from the state reached. -/
theorem loop_append {σ : Type} (dm : DataModel) (h : Handler σ)
    (pre l2 : List (Int × Option (List Char))) :
    ∀ (st : State) (hs : σ), (∀ o ∈ pre, o.1 > -1) →
      (common_options_loop dm h pre st hs).outcome = Outcome.returned 0 →
      common_options_loop dm h (pre ++ l2) st hs =
        { state := (common_options_loop dm h l2 (common_options_loop dm h pre st hs).state
            (common_options_loop dm h pre st hs).hstate).state,
          hstate := (common_options_loop dm h l2 (common_options_loop dm h pre st hs).state
            (common_options_loop dm h pre st hs).hstate).hstate,
          trace := (common_options_loop dm h pre st hs).trace ++
            (common_options_loop dm h l2 (common_options_loop dm h pre st hs).state
              (common_options_loop dm h pre st hs).hstate).trace,
          outcome := (common_options_loop dm h l2 (common_options_loop dm h pre st hs).state
            (common_options_loop dm h pre st hs).hstate).outcome } := by
  induction pre with
  | nil =>
    intro st hs _ _
    simp [common_options_loop]
  | cons o pre ih =>
    intro st hs hpre hret
    obtain ⟨c, optarg⟩ := o
    have hgt : c > -1 := hpre (c, optarg) (by simp)
    cases hf : (common_options_body dm h c optarg st hs).2.2.2 with
    | next =>
      have hret1 : (common_options_loop dm h pre (common_options_body dm h c optarg st hs).1
          (common_options_body dm h c optarg st hs).2.1).outcome = Outcome.returned 0 := by
        simpa [common_options_loop, hgt, hf] using hret
      have := ih (common_options_body dm h c optarg st hs).1
        (common_options_body dm h c optarg st hs).2.1 (fun o ho => hpre o (by simp [ho])) hret1
      rw [List.cons_append, loop_cons_next dm h c optarg (pre ++ l2) st hs hgt hf, this,
        loop_cons_next dm h c optarg pre st hs hgt hf]
      simp [List.append_assoc]
    | exit status =>
      simp [common_options_loop, hgt, hf] at hret
    | undefined =>
      simp [common_options_loop, hgt, hf] at hret

/-- A run that reaches the end of the options offers as many times as there
are options. -/
theorem loop_offer_count {σ : Type} (dm : DataModel) (h : Handler σ)
    (l : List (Int × Option (List Char))) :
    ∀ (st : State) (hs : σ), (∀ o ∈ l, o.1 > -1) →
      (common_options_loop dm h l st hs).outcome = Outcome.returned 0 →
      (common_options_loop dm h l st hs).trace.countP Event.isOffer = l.length := by
  induction l with
  | nil =>
    intro st hs _ _
    simp [common_options_loop]
  | cons o l ih =>
    intro st hs hl hret
    obtain ⟨c, optarg⟩ := o
    have hgt : c > -1 := hl (c, optarg) (by simp)
    have hsw : (common_switch dm c optarg st).2.1.countP Event.isOffer = 0 :=
      List.countP_eq_zero.mpr (fun e he => by simp [switch_trace_no_offer dm c optarg st e he])
    have hb : (common_options_body dm h c optarg st hs).2.2.1.countP Event.isOffer = 1 := by
      rw [(body_trace dm h c optarg st hs).1]
      by_cases hc : (h hs c optarg).1 = 0 <;>
        simp [hc, List.countP_cons, Event.isOffer, hsw]
    cases hf : (common_options_body dm h c optarg st hs).2.2.2 with
    | next =>
      have hret1 : (common_options_loop dm h l (common_options_body dm h c optarg st hs).1
          (common_options_body dm h c optarg st hs).2.1).outcome = Outcome.returned 0 := by
        simpa [common_options_loop, hgt, hf] using hret
      have := ih (common_options_body dm h c optarg st hs).1
        (common_options_body dm h c optarg st hs).2.1 (fun o ho => hl o (by simp [ho])) hret1
      rw [loop_cons_next dm h c optarg l st hs hgt hf]
      simp only [List.countP_append, hb, this, List.length_cons]
      omega
    | exit status =>
      simp [common_options_loop, hgt, hf] at hret
    | undefined =>
      simp [common_options_loop, hgt, hf] at hret

/-! ## Facts about lists of events -/

/-- A list without an element satisfying `p` is not split at such an element. -/
theorem no_split_of_all_false {α : Type} (p : α → Bool) (l pre post : List α) (e : α)
    (hl : ∀ x ∈ l, p x = false) (h : l = pre ++ e :: post) (he : p e = true) : False := by
  have : p e = false := hl e (by simp [h])
  simp [this] at he

/-- A list with exactly one element satisfying `p` is split at such an element
in one way only. -/
theorem unique_split {α : Type} (p : α → Bool) (t post0 : List α) (r : α)
    (ht : ∀ x ∈ t, p x = false) (hp : ∀ x ∈ post0, p x = false) :
    ∀ (pre : List α) (e : α) (post : List α), t ++ r :: post0 = pre ++ e :: post →
      p e = true → pre = t ∧ e = r ∧ post = post0 := by
  induction t with
  | nil =>
    intro pre e post h he
    cases pre with
    | nil =>
      simp at h
      simp [h.1, h.2]
    | cons b pre =>
      simp at h
      have : p e = false := hp e (by simp [h.2])
      simp [this] at he
  | cons a t ih =>
    intro pre e post h he
    cases pre with
    | nil =>
      simp at h
      have : p e = false := by
        rw [← h.1]
        exact ht a (by simp)
      simp [this] at he
    | cons b pre =>
      simp at h
      obtain ⟨hab, h⟩ := h
      obtain ⟨h1, h2, h3⟩ := ih (fun x hx => ht x (by simp [hx])) pre e post h he
      simp [hab, h1, h2, h3]

/-! ## Facts about `common_ftdi_init` -/

/-- The three ways lines 150-158 can run. -/
theorem reset_chip_cases (drv : Driver) (cfg : Config) (ftdi : Ctx) (t : List Event) :
    (cfg.reset = 0 ∧
      reset_chip drv cfg ftdi t = { trace := t, outcome := InitOutcome.returned (some ftdi) }) ∨
    (cfg.reset ≠ 0 ∧ drv.ftdi_usb_reset ftdi = 0 ∧
      reset_chip drv cfg ftdi t =
        { trace := t ++ [Event.ftdi_usb_reset ftdi 0],
          outcome := InitOutcome.returned (some ftdi) }) ∨
    (cfg.reset ≠ 0 ∧ drv.ftdi_usb_reset ftdi ≠ 0 ∧
      reset_chip drv cfg ftdi t =
        { trace := t ++ [Event.ftdi_usb_reset ftdi (drv.ftdi_usb_reset ftdi),
            Event.stderr Diag.reset_failed, Event.p_exit EXIT_FAILURE],
          outcome := InitOutcome.exited EXIT_FAILURE }) := by
  by_cases hr : cfg.reset = 0
  · left
    simp [reset_chip, hr]
  · by_cases hz : drv.ftdi_usb_reset ftdi = 0
    · right; left
      simp [reset_chip, hr, hz]
    · right; right
      simp [reset_chip, hr, hz, p_exit]

/-- The ways lines 114-149 can run, up to the reset. -/
theorem common_ftdi_init_cases (drv : Driver) (cfg : Config) :
    (drv.ftdi_new = none ∧
      common_ftdi_init drv cfg =
        { trace := [Event.ftdi_new none, Event.stderr Diag.ftdi_new_failed],
          outcome := InitOutcome.returned none }) ∨
    (∃ ftdi err, drv.ftdi_new = some ftdi ∧ err = drv.ftdi_set_interface ftdi cfg.interface ∧
      err < 0 ∧
      common_ftdi_init drv cfg =
        { trace := [Event.ftdi_new (some ftdi), Event.ftdi_set_interface ftdi cfg.interface err,
            Event.stderr (Diag.set_interface_failed err)],
          outcome := InitOutcome.returned none }) ∨
    (∃ ftdi err ret, drv.ftdi_new = some ftdi ∧
      err = drv.ftdi_set_interface ftdi cfg.interface ∧ 0 ≤ err ∧
      cfg.usb_vid = 0 ∧ cfg.usb_pid = 0 ∧ ret = (drv.ftdi_usb_find_all ftdi 0 0).ret ∧ ret < 1 ∧
      common_ftdi_init drv cfg =
        { trace := [Event.ftdi_new (some ftdi), Event.ftdi_set_interface ftdi cfg.interface err,
            Event.ftdi_usb_find_all ftdi 0 0 ret, Event.stderr Diag.no_matching_device],
          outcome := InitOutcome.returned none }) ∨
    (∃ ftdi err dev devs oerr, drv.ftdi_new = some ftdi ∧
      err = drv.ftdi_set_interface ftdi cfg.interface ∧ 0 ≤ err ∧ cfg.usb_vid = 0 ∧
      cfg.usb_pid = 0 ∧ drv.ftdi_usb_find_all ftdi 0 0 = FindAll.devices (dev :: devs) ∧
      oerr = drv.ftdi_usb_open_dev ftdi dev ∧ oerr < 0 ∧
      common_ftdi_init drv cfg =
        { trace := enumTrace cfg ftdi err dev devs oerr ++ [Event.stderr Diag.open_failed],
          outcome := InitOutcome.returned none }) ∨
    (∃ ftdi err dev devs oerr, drv.ftdi_new = some ftdi ∧
      err = drv.ftdi_set_interface ftdi cfg.interface ∧ 0 ≤ err ∧ cfg.usb_vid = 0 ∧
      cfg.usb_pid = 0 ∧ drv.ftdi_usb_find_all ftdi 0 0 = FindAll.devices (dev :: devs) ∧
      oerr = drv.ftdi_usb_open_dev ftdi dev ∧ 0 ≤ oerr ∧
      common_ftdi_init drv cfg =
        reset_chip drv cfg ftdi (enumTrace cfg ftdi err dev devs oerr)) ∨
    (∃ ftdi err oerr, drv.ftdi_new = some ftdi ∧
      err = drv.ftdi_set_interface ftdi cfg.interface ∧ 0 ≤ err ∧
      ¬ (cfg.usb_vid = 0 ∧ cfg.usb_pid = 0) ∧
      oerr = drv.ftdi_usb_open_desc ftdi cfg.usb_vid cfg.usb_pid cfg.usb_description
        cfg.usb_serial ∧ oerr < 0 ∧
      common_ftdi_init drv cfg =
        { trace := descTrace cfg ftdi err oerr ++ [Event.stderr Diag.open_failed],
          outcome := InitOutcome.returned none }) ∨
    (∃ ftdi err oerr, drv.ftdi_new = some ftdi ∧
      err = drv.ftdi_set_interface ftdi cfg.interface ∧ 0 ≤ err ∧
      ¬ (cfg.usb_vid = 0 ∧ cfg.usb_pid = 0) ∧
      oerr = drv.ftdi_usb_open_desc ftdi cfg.usb_vid cfg.usb_pid cfg.usb_description
        cfg.usb_serial ∧ 0 ≤ oerr ∧
      common_ftdi_init drv cfg = reset_chip drv cfg ftdi (descTrace cfg ftdi err oerr)) := by
  cases hnew : drv.ftdi_new with
  | none =>
    left
    simp [common_ftdi_init, hnew]
  | some ftdi =>
    right
    by_cases hset : drv.ftdi_set_interface ftdi cfg.interface < 0
    · left
      exact ⟨ftdi, _, rfl, rfl, hset, by simp [common_ftdi_init, hnew, hset]⟩
    · right
      have hset0 : 0 ≤ drv.ftdi_set_interface ftdi cfg.interface := by omega
      by_cases hz : cfg.usb_vid = 0 ∧ cfg.usb_pid = 0
      · obtain ⟨hv, hp⟩ := hz
        cases hfound : drv.ftdi_usb_find_all ftdi 0 0 with
        | error n =>
          left
          refine ⟨ftdi, _, -((n : Int) + 1), rfl, rfl, hset0, hv, hp, by simp [hfound, FindAll.ret],
            by omega, ?_⟩
          simp [common_ftdi_init, hnew, hset, hv, hp, hfound, FindAll.ret]
        | devices devs =>
          cases devs with
          | nil =>
            left
            refine ⟨ftdi, _, 0, rfl, rfl, hset0, hv, hp, by simp [hfound, FindAll.ret], by omega, ?_⟩
            simp [common_ftdi_init, hnew, hset, hv, hp, hfound, FindAll.ret]
          | cons dev devs =>
            right
            by_cases ho : drv.ftdi_usb_open_dev ftdi dev < 0
            · left
              refine ⟨ftdi, _, dev, devs, _, rfl, rfl, hset0, hv, hp, hfound, rfl, ho, ?_⟩
              simp [common_ftdi_init, hnew, hset, hv, hp, hfound, FindAll.ret, ho, enumTrace]
            · right; left
              refine ⟨ftdi, _, dev, devs, drv.ftdi_usb_open_dev ftdi dev, rfl, rfl, hset0, hv, hp,
                hfound, rfl, by omega, ?_⟩
              simp [common_ftdi_init, hnew, hset, hv, hp, hfound, FindAll.ret, ho, enumTrace]
      · right; right; right
        by_cases ho : drv.ftdi_usb_open_desc ftdi cfg.usb_vid cfg.usb_pid cfg.usb_description
            cfg.usb_serial < 0
        · left
          refine ⟨ftdi, _, _, rfl, rfl, hset0, hz, rfl, ho, ?_⟩
          simp [common_ftdi_init, hnew, hset, hz, ho, descTrace]
        · right
          refine ⟨ftdi, _, drv.ftdi_usb_open_desc ftdi cfg.usb_vid cfg.usb_pid cfg.usb_description
            cfg.usb_serial, rfl, rfl, hset0, hz, rfl, by omega, ?_⟩
          simp [common_ftdi_init, hnew, hset, hz, ho, descTrace]

/-- The events of a run of `reset_chip` after a trace `t` that holds no reset,
holds a successful open and no failed one: a reset occurs only with the flag
set, at the end of `t`, and then exactly once. -/
theorem reset_chip_trace (drv : Driver) (cfg : Config) (ftdi : Ctx) (t : List Event)
    (ht : ∀ x ∈ t, x.isReset = false) (hok : ∃ o ∈ t, o.isOpenOk = true)
    (hfail : ∀ o ∈ t, o.isOpenFail = false) :
    (∀ pre e post, (reset_chip drv cfg ftdi t).trace = pre ++ e :: post → e.isReset = true →
      cfg.reset ≠ 0 ∧ (∃ o ∈ pre, o.isOpenOk = true) ∧ (∀ o ∈ pre, o.isOpenFail = false) ∧
      (∀ o ∈ post, o.isOpen = false) ∧ (∀ x ∈ pre ++ post, x.isReset = false)) ∧
    (cfg.reset ≠ 0 → (reset_chip drv cfg ftdi t).trace.countP Event.isReset = 1) := by
  have hcount : t.countP Event.isReset = 0 :=
    List.countP_eq_zero.mpr (fun e he => by simp [ht e he])
  rcases reset_chip_cases drv cfg ftdi t with ⟨hr, hrc⟩ | ⟨hr, _, hrc⟩ | ⟨hr, _, hrc⟩
  · rw [hrc]
    refine ⟨fun pre e post h he => ?_, fun h => absurd hr h⟩
    exact (no_split_of_all_false Event.isReset t pre post e ht h he).elim
  · rw [hrc]
    refine ⟨fun pre e post h he => ?_, fun _ => ?_⟩
    · obtain ⟨rfl, rfl, rfl⟩ := unique_split Event.isReset t [] _ ht (by simp) pre e post h he
      exact ⟨hr, hok, hfail, by simp, by simpa using ht⟩
    · simp [List.countP_append, hcount, List.countP_cons, Event.isReset]
  · rw [hrc]
    refine ⟨fun pre e post h he => ?_, fun _ => ?_⟩
    · obtain ⟨rfl, rfl, rfl⟩ := unique_split Event.isReset t _ _ ht
        (by simp [Event.isReset]) pre e post h he
      refine ⟨hr, hok, hfail, by simp [Event.isOpen], ?_⟩
      intro x hx
      simp at hx
      rcases hx with hx | rfl | rfl
      · exact ht x hx
      · rfl
      · rfl
    · simp [List.countP_append, hcount, List.countP_cons, Event.isReset]

/-- The events of the enumeration path up to a successful open: no reset, no
failure, no exit, no diagnostic, no descriptor open, and a successful open. -/
theorem enumTrace_plain (cfg : Config) (ftdi : Ctx) (err : Int) (dev : Dev) (devs : List Dev)
    (oerr : Int) (herr : 0 ≤ err) (ho : 0 ≤ oerr) :
    (∀ x ∈ enumTrace cfg ftdi err dev devs oerr,
      x.isReset = false ∧ x.isOpenFail = false ∧ x.isResolutionFailure = false ∧
      x.isExit = false ∧ x.isStderr = false ∧ x.isOpenDesc = false) ∧
    (∃ o ∈ enumTrace cfg ftdi err dev devs oerr, o.isOpenOk = true) := by
  have h1 : ¬ (err < 0) := by omega
  have h2 : ¬ (oerr < 0) := by omega
  have h3 : ¬ ((devs.length : Int) + 1 < 1) := by omega
  simp [enumTrace, Event.isReset, Event.isOpenFail, Event.isResolutionFailure, Event.isExit,
    Event.isStderr, Event.isOpenDesc, Event.isOpenOk, h1, h2, h3, ho]

/-- The events of the descriptor path up to a successful open: no reset, no
failure, no exit, no diagnostic, no enumeration, and a successful open. -/
theorem descTrace_plain (cfg : Config) (ftdi : Ctx) (err oerr : Int)
    (herr : 0 ≤ err) (ho : 0 ≤ oerr) :
    (∀ x ∈ descTrace cfg ftdi err oerr,
      x.isReset = false ∧ x.isOpenFail = false ∧ x.isResolutionFailure = false ∧
      x.isExit = false ∧ x.isStderr = false ∧ x.isEnumerate = false) ∧
    (∃ o ∈ descTrace cfg ftdi err oerr, o.isOpenOk = true) := by
  have h1 : ¬ (err < 0) := by omega
  have h2 : ¬ (oerr < 0) := by omega
  simp [descTrace, Event.isReset, Event.isOpenFail, Event.isResolutionFailure, Event.isExit,
    Event.isStderr, Event.isEnumerate, Event.isOpenOk, h1, h2, ho]

/-- A run of `reset_chip` after events `t` without failure: no step of it is a
resolution failure, and without the reset flag it returns the context. -/
theorem reset_chip_no_failure (drv : Driver) (cfg : Config) (ftdi : Ctx) (t : List Event)
    (ht : ∀ x ∈ t, x.isResolutionFailure = false) :
    (∀ x ∈ (reset_chip drv cfg ftdi t).trace, x.isResolutionFailure = false) ∧
    (cfg.reset = 0 → reset_chip drv cfg ftdi t =
      { trace := t, outcome := InitOutcome.returned (some ftdi) }) := by
  rcases reset_chip_cases drv cfg ftdi t with ⟨hr, hrc⟩ | ⟨hr, _, hrc⟩ | ⟨hr, _, hrc⟩
  · rw [hrc]
    exact ⟨ht, fun _ => rfl⟩
  · rw [hrc]
    refine ⟨fun x hx => ?_, fun h => absurd h hr⟩
    simp at hx
    rcases hx with hx | rfl
    · exact ht x hx
    · rfl
  · rw [hrc]
    refine ⟨fun x hx => ?_, fun h => absurd h hr⟩
    simp at hx
    rcases hx with hx | rfl | rfl | rfl
    · exact ht x hx
    · rfl
    · rfl
    · rfl

/-- A run in which a device-resolution step fails prints one line, returns
`NULL`, and neither calls `p_exit` nor resets. -/
theorem init_failure_run (drv : Driver) (cfg : Config)
    (hfail : ∃ e ∈ (common_ftdi_init drv cfg).trace, e.isResolutionFailure = true) :
    (common_ftdi_init drv cfg).outcome = InitOutcome.returned none ∧
    (common_ftdi_init drv cfg).trace.countP Event.isStderr = 1 ∧
    (∀ e ∈ (common_ftdi_init drv cfg).trace, e.isExit = false ∧ e.isReset = false) := by
  rcases common_ftdi_init_cases drv cfg with
    ⟨hn, hrun⟩ | ⟨ftdi, err, hn, _, he, hrun⟩ | ⟨ftdi, err, ret, hn, _, _, _, _, _, hret, hrun⟩ |
    ⟨ftdi, err, dev, devs, oerr, hn, _, he, _, _, _, _, ho, hrun⟩ |
    ⟨ftdi, err, dev, devs, oerr, hn, _, he, _, _, _, _, ho, hrun⟩ |
    ⟨ftdi, err, oerr, hn, _, he, _, _, ho, hrun⟩ | ⟨ftdi, err, oerr, hn, _, he, _, _, ho, hrun⟩
  · rw [hrun]
    simp [Event.isStderr, Event.isExit, Event.isReset, List.countP_cons]
  · rw [hrun]
    simp [Event.isStderr, Event.isExit, Event.isReset, List.countP_cons]
  · rw [hrun]
    simp [Event.isStderr, Event.isExit, Event.isReset, List.countP_cons]
  · rw [hrun]
    simp [enumTrace, Event.isStderr, Event.isExit, Event.isReset, List.countP_cons]
  · exfalso
    rw [hrun] at hfail
    obtain ⟨e, he1, he2⟩ := hfail
    have := (reset_chip_no_failure drv cfg ftdi _
      (fun x hx => ((enumTrace_plain cfg ftdi err dev devs oerr he ho).1 x hx).2.2.1)).1 e he1
    simp [this] at he2
  · rw [hrun]
    simp [descTrace, Event.isStderr, Event.isExit, Event.isReset, List.countP_cons]
  · exfalso
    rw [hrun] at hfail
    obtain ⟨e, he1, he2⟩ := hfail
    have := (reset_chip_no_failure drv cfg ftdi _
      (fun x hx => ((descTrace_plain cfg ftdi err oerr he ho).1 x hx).2.2.1)).1 e he1
    simp [this] at he2

/-- A run without the reset flag in which no device-resolution step fails
returns the context obtained from `ftdi_new`. -/
theorem init_success_run (drv : Driver) (cfg : Config)
    (hok : ∀ e ∈ (common_ftdi_init drv cfg).trace, e.isResolutionFailure = false)
    (hflag : cfg.reset = 0) :
    ∃ ftdi, drv.ftdi_new = some ftdi ∧
      Event.ftdi_new (some ftdi) ∈ (common_ftdi_init drv cfg).trace ∧
      (common_ftdi_init drv cfg).outcome = InitOutcome.returned (some ftdi) := by
  rcases common_ftdi_init_cases drv cfg with
    ⟨hn, hrun⟩ | ⟨ftdi, err, hn, _, he, hrun⟩ | ⟨ftdi, err, ret, hn, _, _, _, _, _, hret, hrun⟩ |
    ⟨ftdi, err, dev, devs, oerr, hn, _, he, _, _, _, _, ho, hrun⟩ |
    ⟨ftdi, err, dev, devs, oerr, hn, _, he, _, _, _, _, ho, hrun⟩ |
    ⟨ftdi, err, oerr, hn, _, he, _, _, ho, hrun⟩ | ⟨ftdi, err, oerr, hn, _, he, _, _, ho, hrun⟩
  · rw [hrun] at hok
    simp [Event.isResolutionFailure] at hok
  · rw [hrun] at hok
    simp [Event.isResolutionFailure, he] at hok
  · rw [hrun] at hok
    simp [Event.isResolutionFailure, hret] at hok
  · rw [hrun] at hok
    simp [enumTrace, Event.isResolutionFailure, ho] at hok
  · refine ⟨ftdi, hn, ?_, ?_⟩
    · rw [hrun, (reset_chip_no_failure drv cfg ftdi _
        (fun x hx => ((enumTrace_plain cfg ftdi err dev devs oerr he ho).1 x hx).2.2.1)).2 hflag]
      simp [enumTrace]
    · rw [hrun, (reset_chip_no_failure drv cfg ftdi _
        (fun x hx => ((enumTrace_plain cfg ftdi err dev devs oerr he ho).1 x hx).2.2.1)).2 hflag]
  · rw [hrun] at hok
    simp [descTrace, Event.isResolutionFailure, ho] at hok
  · refine ⟨ftdi, hn, ?_, ?_⟩
    · rw [hrun, (reset_chip_no_failure drv cfg ftdi _
        (fun x hx => ((descTrace_plain cfg ftdi err oerr he ho).1 x hx).2.2.1)).2 hflag]
      simp [descTrace]
    · rw [hrun, (reset_chip_no_failure drv cfg ftdi _
        (fun x hx => ((descTrace_plain cfg ftdi err oerr he ho).1 x hx).2.2.1)).2 hflag]

/-- The events of a run of `reset_chip` are the events `t` before it followed
by events that are neither open calls nor part of the enumeration. -/
theorem reset_chip_extends (drv : Driver) (cfg : Config) (ftdi : Ctx) (t : List Event) :
    ∃ post, (reset_chip drv cfg ftdi t).trace = t ++ post ∧
      ∀ x ∈ post, x.isOpenDesc = false ∧ x.isEnumerate = false := by
  rcases reset_chip_cases drv cfg ftdi t with ⟨_, hrc⟩ | ⟨_, _, hrc⟩ | ⟨_, _, hrc⟩
  · exact ⟨[], by simp [hrc], by simp⟩
  · exact ⟨_, by rw [hrc], by simp [Event.isOpenDesc, Event.isEnumerate]⟩
  · exact ⟨_, by rw [hrc], by simp [Event.isOpenDesc, Event.isEnumerate]⟩

/-! ## The properties -/

/-- C1: for vendor and product ids `v`, `p` up to `0xFFFF` written as hexadecimal
words and an interface number `n` up to 4 written in decimal, `common_options`
run on `--vid=v --pid=p --interface=n` from the initial globals, with a handler
that claims nothing and `errno` not left at `ERANGE`, returns 0 without calling
`p_exit` and leaves exactly `usb_vid = v`, `usb_pid = p`, `interface = n`,
`reset = 0` and no description or serial. The long option table is the common
one followed by any entries of the caller. -/
theorem C1_vid_pid_interface_stored {σ : Type} (dm : DataModel) (h : Handler σ) (hs : σ)
    (prog opts : List Char) (extra : List option) (v p n : Nat) (e : Int)
    (hclaim : ∀ s c a, (h s c a).1 = 0)
    (hv : v ≤ 0xffff) (hp : p ≤ 0xffff) (hn : n ≤ 4) (he : e ≠ ERANGE) :
    (common_options dm h [prog, vidArg v, pidArg p, interfaceArg n] opts
        (COMMON_LONG_OPTS ++ extra) { cfg := Config.default, errno := e } hs).outcome
      = Outcome.returned 0 ∧
    (∀ ev ∈ (common_options dm h [prog, vidArg v, pidArg p, interfaceArg n] opts
        (COMMON_LONG_OPTS ++ extra) { cfg := Config.default, errno := e } hs).trace,
      ev.isExit = false) ∧
    (common_options dm h [prog, vidArg v, pidArg p, interfaceArg n] opts
        (COMMON_LONG_OPTS ++ extra) { cfg := Config.default, errno := e } hs).state.cfg
      = { usb_vid := v, usb_pid := p, usb_description := none, usb_serial := none,
          interface := n, reset := 0 } := by
  have hV : (chr 'V' : Int) > -1 := by decide
  have hP : (chr 'P' : Int) > -1 := by decide
  have hI : (chr 'I' : Int) > -1 := by decide
  simp only [common_options, List.tail, scan_common_args]
  simp only [common_options_loop, hV, hP, hI, if_true,
    body_of_unclaimed dm h _ _ _ _ (hclaim _ _ _)]
  rw [switch_V_hexWord dm _ v hv he]
  simp only []
  rw [switch_P_hexWord dm _ p hp he]
  simp only []
  rw [switch_I_small dm _ n hn]
  simp [Config.default, Event.isExit]

/-- C1 at `--vid=0403 --pid=6001 --interface=1`: the arguments are these
strings, and the run stores vid `0x0403`, pid `0x6001`, interface 1. -/
theorem C1_vid_pid_interface_stored_witness :
    vidArg 0x0403 = ['-', '-', 'v', 'i', 'd', '=', '0', '4', '0', '3'] ∧
    pidArg 0x6001 = ['-', '-', 'p', 'i', 'd', '=', '6', '0', '0', '1'] ∧
    interfaceArg 1 = ['-', '-', 'i', 'n', 't', 'e', 'r', 'f', 'a', 'c', 'e', '=', '1'] ∧
    (common_options DataModel.LP64 claimNothing
        [progName, vidArg 0x0403, pidArg 0x6001, interfaceArg 1] COMMON_SHORT_OPTS
        (COMMON_LONG_OPTS ++ []) { cfg := Config.default, errno := 0 } ()).outcome
      = Outcome.returned 0 ∧
    (∀ ev ∈ (common_options DataModel.LP64 claimNothing
        [progName, vidArg 0x0403, pidArg 0x6001, interfaceArg 1] COMMON_SHORT_OPTS
        (COMMON_LONG_OPTS ++ []) { cfg := Config.default, errno := 0 } ()).trace,
      ev.isExit = false) ∧
    (common_options DataModel.LP64 claimNothing
        [progName, vidArg 0x0403, pidArg 0x6001, interfaceArg 1] COMMON_SHORT_OPTS
        (COMMON_LONG_OPTS ++ []) { cfg := Config.default, errno := 0 } ()).state.cfg
      = { usb_vid := 0x0403, usb_pid := 0x6001, usb_description := none, usb_serial := none,
          interface := 1, reset := 0 } :=
  ⟨by decide, by decide, by decide,
    C1_vid_pid_interface_stored DataModel.LP64 claimNothing () progName COMMON_SHORT_OPTS []
      0x0403 0x6001 1 0 (fun _ _ _ => rfl) (by decide) (by decide) (by decide) (by decide)⟩

/-- C2, evaluated where the code departs from it: with a 64-bit `long`, the
argument `100000001` denotes `2^32 + 1`, outside `[0, 0xFFFF]`, yet
`--vid=100000001` and `--pid=100000001` are accepted: `common_options` returns
0, prints nothing, never calls `p_exit`, and stores the id 1. With a 32-bit
`long` the same argument is rejected through `p_exit(1)`. -/
theorem C2_id_above_32_bits_accepted :
    (strtol DataModel.LP64 hexOverflow32 16) = (0x100000001, false) ∧
    (common_options DataModel.LP64 claimNothing argvVidOverflow COMMON_SHORT_OPTS
        COMMON_LONG_OPTS State.initial ()).outcome = Outcome.returned 0 ∧
    (common_options DataModel.LP64 claimNothing argvVidOverflow COMMON_SHORT_OPTS
        COMMON_LONG_OPTS State.initial ()).trace
      = [Event.p_options (chr 'V') (some hexOverflow32) 0] ∧
    (common_options DataModel.LP64 claimNothing argvVidOverflow COMMON_SHORT_OPTS
        COMMON_LONG_OPTS State.initial ()).state.cfg.usb_vid = 1 ∧
    (common_options DataModel.LP64 claimNothing argvPidOverflow COMMON_SHORT_OPTS
        COMMON_LONG_OPTS State.initial ()).outcome = Outcome.returned 0 ∧
    (common_options DataModel.LP64 claimNothing argvPidOverflow COMMON_SHORT_OPTS
        COMMON_LONG_OPTS State.initial ()).trace
      = [Event.p_options (chr 'P') (some hexOverflow32) 0] ∧
    (common_options DataModel.LP64 claimNothing argvPidOverflow COMMON_SHORT_OPTS
        COMMON_LONG_OPTS State.initial ()).state.cfg.usb_pid = 1 ∧
    (common_options DataModel.ILP32 claimNothing argvVidOverflow COMMON_SHORT_OPTS
        COMMON_LONG_OPTS State.initial ()).outcome = Outcome.exited 1 := by
  decide

/-- C3 fails as stated: on `--vid=0403 --vid=zz` the argument `zz`, which is no
hexadecimal number, is accepted without a diagnostic and without `p_exit`, and
the vendor id 0 is stored from it over the `0x0403` set before. -/
theorem C3_junk_vid_stored_as_zero :
    (common_options DataModel.LP64 claimNothing argvVidJunk COMMON_SHORT_OPTS
        COMMON_LONG_OPTS State.initial ()).outcome = Outcome.returned 0 ∧
    (common_options DataModel.LP64 claimNothing argvVidJunk COMMON_SHORT_OPTS
        COMMON_LONG_OPTS State.initial ()).trace
      = [Event.p_options (chr 'V') (some ['0', '4', '0', '3']) 0,
         Event.p_options (chr 'V') (some ['z', 'z']) 0] ∧
    (common_options DataModel.LP64 claimNothing argvVidJunk COMMON_SHORT_OPTS
        COMMON_LONG_OPTS State.initial ()).state.cfg.usb_vid = 0 := by
  decide

/-- C3 as amended: an argument of `-V` or `-P` that does not parse as a
hexadecimal number is not rejected for that reason. Every argument `a` has the
form: white space `ws`, at most one sign `sg`, an optional `0x` or `0X` before
a hexadecimal digit `px`, the hexadecimal digits `ds` that follow (possibly
none), and a rest `r`; the code reads it as the number of `ds` alone, 0 when
there are none, negated after a minus sign, and ignores the rest. With `errno`
not `ERANGE`, the option not claimed by the handler and the value of the digits
below `2^31`: if that number lies in `[0, 0xFFFF]` it is stored as the id with
no diagnostic and no `p_exit`; otherwise the invalid-value diagnostic is
printed, `p_exit(1)` is called and nothing is stored. -/
theorem C3_id_argument_read_by_form {σ : Type} (dm : DataModel) (h : Handler σ)
    (st : State) (hs : σ) (a : List Char)
    (he : st.errno ≠ ERANGE)
    (hV : (h hs (chr 'V') (some a)).1 = 0)
    (hP : (h hs (chr 'P') (some a)).1 = 0) :
    (∃ ws sg px ds r, a = ws ++ sg ++ px ++ ds ++ r ∧ HexForm ws sg px ds r) ∧
    (∀ ws sg px ds r, a = ws ++ sg ++ px ++ ds ++ r → HexForm ws sg px ds r →
      scanDigits 16 0 ds < 2 ^ 31 →
      common_options_body dm h (chr 'V') (some a) st hs =
        (if 0 ≤ hexFormValue sg ds ∧ hexFormValue sg ds ≤ 0xffff then
          ({ st with cfg := { st.cfg with usb_vid := (hexFormValue sg ds).toNat } },
            (h hs (chr 'V') (some a)).2,
            [Event.p_options (chr 'V') (some a) 0], Flow.next)
        else
          (st, (h hs (chr 'V') (some a)).2,
            [Event.p_options (chr 'V') (some a) 0, Event.stderr Diag.invalid_vid,
              Event.p_exit 1], Flow.exit 1)) ∧
      common_options_body dm h (chr 'P') (some a) st hs =
        (if 0 ≤ hexFormValue sg ds ∧ hexFormValue sg ds ≤ 0xffff then
          ({ st with cfg := { st.cfg with usb_pid := (hexFormValue sg ds).toNat } },
            (h hs (chr 'P') (some a)).2,
            [Event.p_options (chr 'P') (some a) 0], Flow.next)
        else
          (st, (h hs (chr 'P') (some a)).2,
            [Event.p_options (chr 'P') (some a) 0, Event.stderr Diag.invalid_pid,
              Event.p_exit 1], Flow.exit 1))) := by
  refine ⟨hexForm_exists a, fun ws sg px ds r ha hform hlt => ?_⟩
  rw [body_of_unclaimed dm h _ _ st hs hV, body_of_unclaimed dm h _ _ st hs hP]
  subst ha
  rw [switch_V_hexForm dm st ws sg px ds r hform he hlt,
    switch_P_hexForm dm st ws sg px ds r hform he hlt]
  by_cases hin : 0 ≤ hexFormValue sg ds ∧ hexFormValue sg ds ≤ 0xffff <;> simp [hin]

/-- C3 as amended, at the arguments ` 0x12xy` (white space, mark `0x`, digits
`12`, rest `xy`) and `-12xy` (sign, digits `12`, rest `xy`) after `--vid=0403`:
the first stores the vendor id `0x12` silently, the second is rejected and
stores nothing. -/
theorem C3_id_argument_read_by_form_witness :
    HexForm [' '] [] ['0', 'x'] ['1', '2'] ['x', 'y'] ∧
    HexForm [] ['-'] [] ['1', '2'] ['x', 'y'] ∧
    hexFormValue [] ['1', '2'] = 0x12 ∧ hexFormValue ['-'] ['1', '2'] = -0x12 ∧
    common_options_body DataModel.LP64 claimNothing (chr 'V')
        (some [' ', '0', 'x', '1', '2', 'x', 'y'])
        { cfg := { Config.default with usb_vid := 0x0403 }, errno := 0 } () =
      ({ cfg := { Config.default with usb_vid := 0x12 }, errno := 0 }, (),
        [Event.p_options (chr 'V') (some [' ', '0', 'x', '1', '2', 'x', 'y']) 0],
        Flow.next) ∧
    common_options_body DataModel.LP64 claimNothing (chr 'V')
        (some ['-', '1', '2', 'x', 'y'])
        { cfg := { Config.default with usb_vid := 0x0403 }, errno := 0 } () =
      ({ cfg := { Config.default with usb_vid := 0x0403 }, errno := 0 }, (),
        [Event.p_options (chr 'V') (some ['-', '1', '2', 'x', 'y']) 0,
          Event.stderr Diag.invalid_vid, Event.p_exit 1], Flow.exit 1) :=
  ⟨by unfold HexForm; decide, by unfold HexForm; decide, by decide, by decide,
    ((C3_id_argument_read_by_form DataModel.LP64 claimNothing
      { cfg := { Config.default with usb_vid := 0x0403 }, errno := 0 } ()
      [' ', '0', 'x', '1', '2', 'x', 'y'] (by decide) rfl rfl).2
      [' '] [] ['0', 'x'] ['1', '2'] ['x', 'y'] rfl (by unfold HexForm; decide)
      (by decide)).1,
    ((C3_id_argument_read_by_form DataModel.LP64 claimNothing
      { cfg := { Config.default with usb_vid := 0x0403 }, errno := 0 } ()
      ['-', '1', '2', 'x', 'y'] (by decide) rfl rfl).2
      [] ['-'] [] ['1', '2'] ['x', 'y'] rfl (by unfold HexForm; decide) (by decide)).1⟩

/-- C4, evaluated where the code departs from it: with a 64-bit `long`, the
decimal integer `4294967297` is outside `[0, 4]`, yet `--interface=4294967297`
is accepted: `atoi` yields 1, `common_options` returns 0 without a diagnostic
and without `p_exit`, and the stored interface is 1, not the integer given.
With a 32-bit `long` the same argument is rejected through `p_exit(1)`. -/
theorem C4_interface_above_32_bits_accepted :
    scanDigits 10 0 decOverflow32 = 4294967297 ∧
    atoi DataModel.LP64 decOverflow32 = (1, false) ∧
    (common_options DataModel.LP64 claimNothing argvInterfaceOverflow COMMON_SHORT_OPTS
        COMMON_LONG_OPTS State.initial ()).outcome = Outcome.returned 0 ∧
    (common_options DataModel.LP64 claimNothing argvInterfaceOverflow COMMON_SHORT_OPTS
        COMMON_LONG_OPTS State.initial ()).trace
      = [Event.p_options (chr 'I') (some decOverflow32) 0] ∧
    (common_options DataModel.LP64 claimNothing argvInterfaceOverflow COMMON_SHORT_OPTS
        COMMON_LONG_OPTS State.initial ()).state.cfg.interface = 1 ∧
    (common_options DataModel.ILP32 claimNothing argvInterfaceOverflow COMMON_SHORT_OPTS
        COMMON_LONG_OPTS State.initial ()).outcome = Outcome.exited 1 := by
  decide

/-- C5 fails as stated: `--vid=0` supplies `-V` with the accepted value 0, and
`common_ftdi_init`, with context creation and interface selection succeeding,
still enumerates (`ftdi_usb_find_all`, then `ftdi_usb_open_dev` on the first
entry) and does not call `ftdi_usb_open_desc`. -/
theorem C5_vid_zero_still_enumerates :
    (common_options DataModel.LP64 claimNothing argvVidZero COMMON_SHORT_OPTS
        COMMON_LONG_OPTS State.initial ()).outcome = Outcome.returned 0 ∧
    (common_options DataModel.LP64 claimNothing argvVidZero COMMON_SHORT_OPTS
        COMMON_LONG_OPTS State.initial ()).trace
      = [Event.p_options (chr 'V') (some ['0']) 0] ∧
    common_ftdi_init driverOk
        (common_options DataModel.LP64 claimNothing argvVidZero COMMON_SHORT_OPTS
          COMMON_LONG_OPTS State.initial ()).state.cfg
      = { trace := [Event.ftdi_new (some 1), Event.ftdi_set_interface 1 0 0,
            Event.ftdi_usb_find_all 1 0 0 1, Event.ftdi_usb_open_dev 1 7 0,
            Event.ftdi_list_free],
          outcome := InitOutcome.returned (some 1) } := by
  decide

/-- C5 as amended: when context creation and interface selection succeed,
exactly one selection path runs, and it is chosen by the configured ids, not by
whether `-V` or `-P` was supplied. If `usb_vid` and `usb_pid` are both zero (as
they are when neither option was supplied, and also when they were supplied
with the value 0) the run calls `ftdi_usb_find_all`, opens the first list entry
when there is one, and never calls `ftdi_usb_open_desc`. If at least one of
them is not zero the run calls `ftdi_usb_open_desc` once, with exactly the
configured vendor id, product id, description and serial, and never enumerates.
Options other than `-V` and `-P` leave both ids as they were. -/
theorem C5_path_chosen_by_configured_ids (drv : Driver) (cfg : Config) (ftdi : Ctx)
    (hnew : drv.ftdi_new = some ftdi)
    (hset : 0 ≤ drv.ftdi_set_interface ftdi cfg.interface) :
    (cfg.usb_vid = 0 ∧ cfg.usb_pid = 0 →
      Event.ftdi_usb_find_all ftdi 0 0 (drv.ftdi_usb_find_all ftdi 0 0).ret
        ∈ (common_ftdi_init drv cfg).trace ∧
      (∀ e ∈ (common_ftdi_init drv cfg).trace, e.isOpenDesc = false) ∧
      (∀ dev devs, drv.ftdi_usb_find_all ftdi 0 0 = FindAll.devices (dev :: devs) →
        Event.ftdi_usb_open_dev ftdi dev (drv.ftdi_usb_open_dev ftdi dev)
          ∈ (common_ftdi_init drv cfg).trace)) ∧
    (¬ (cfg.usb_vid = 0 ∧ cfg.usb_pid = 0) →
      Event.ftdi_usb_open_desc ftdi cfg.usb_vid cfg.usb_pid cfg.usb_description cfg.usb_serial
        (drv.ftdi_usb_open_desc ftdi cfg.usb_vid cfg.usb_pid cfg.usb_description cfg.usb_serial)
        ∈ (common_ftdi_init drv cfg).trace ∧
      (common_ftdi_init drv cfg).trace.countP Event.isOpenDesc = 1 ∧
      (∀ e ∈ (common_ftdi_init drv cfg).trace, e.isEnumerate = false)) ∧
    (∀ (σ : Type) (dm : DataModel) (h : Handler σ) (l : List (Int × Option (List Char)))
      (st : State) (hs : σ), (∀ o ∈ l, o.1 ≠ chr 'V' ∧ o.1 ≠ chr 'P') →
      (common_options_loop dm h l st hs).state.cfg.usb_vid = st.cfg.usb_vid ∧
      (common_options_loop dm h l st hs).state.cfg.usb_pid = st.cfg.usb_pid) := by
  refine ⟨?_, ?_, fun σ dm h l st hs hl => loop_keeps_ids dm h l hl st hs⟩
  · intro hz
    rcases common_ftdi_init_cases drv cfg with
      ⟨hn, hrun⟩ | ⟨ftdi1, err, hn, herr, he, hrun⟩ |
      ⟨ftdi1, err, ret, hn, _, _, _, _, hret, hlt, hrun⟩ |
      ⟨ftdi1, err, dev, devs, oerr, hn, _, he, _, _, hfound, hoerr, ho, hrun⟩ |
      ⟨ftdi1, err, dev, devs, oerr, hn, _, he, _, _, hfound, hoerr, ho, hrun⟩ |
      ⟨ftdi1, err, oerr, hn, _, he, hnz, _, ho, hrun⟩ |
      ⟨ftdi1, err, oerr, hn, _, he, hnz, _, ho, hrun⟩
    · rw [hnew] at hn
      exact absurd hn (by simp)
    · rw [hnew] at hn
      obtain rfl := Option.some.inj hn
      omega
    · rw [hnew] at hn
      obtain rfl := Option.some.inj hn
      rw [hrun]
      refine ⟨by simp [hret], by simp [Event.isOpenDesc], fun dev devs hd => ?_⟩
      rw [hd] at hret
      simp [FindAll.ret] at hret
      omega
    · rw [hnew] at hn
      obtain rfl := Option.some.inj hn
      rw [hrun]
      refine ⟨by simp [enumTrace, hfound, FindAll.ret], by simp [enumTrace, Event.isOpenDesc],
        fun dev1 devs1 hd => ?_⟩
      rw [hfound] at hd
      simp at hd
      simp [enumTrace, hoerr, hd.1]
    · rw [hnew] at hn
      obtain rfl := Option.some.inj hn
      obtain ⟨post, hpost, hp⟩ := reset_chip_extends drv cfg ftdi
        (enumTrace cfg ftdi err dev devs oerr)
      rw [hrun, hpost]
      refine ⟨by simp [enumTrace, hfound, FindAll.ret], fun e he1 => ?_, fun dev1 devs1 hd => ?_⟩
      · rcases List.mem_append.mp he1 with h1 | h1
        · exact ((enumTrace_plain cfg ftdi err dev devs oerr he ho).1 e h1).2.2.2.2.2
        · exact (hp e h1).1
      · rw [hfound] at hd
        simp at hd
        simp [enumTrace, hoerr, hd.1]
    · exact absurd hz hnz
    · exact absurd hz hnz
  · intro hz
    rcases common_ftdi_init_cases drv cfg with
      ⟨hn, hrun⟩ | ⟨ftdi1, err, hn, herr, he, hrun⟩ |
      ⟨ftdi1, err, ret, hn, _, _, hv, hp, hret, hlt, hrun⟩ |
      ⟨ftdi1, err, dev, devs, oerr, hn, _, he, hv, hp, hfound, hoerr, ho, hrun⟩ |
      ⟨ftdi1, err, dev, devs, oerr, hn, _, he, hv, hp, hfound, hoerr, ho, hrun⟩ |
      ⟨ftdi1, err, oerr, hn, _, he, hnz, hoerr, ho, hrun⟩ |
      ⟨ftdi1, err, oerr, hn, _, he, hnz, hoerr, ho, hrun⟩
    · rw [hnew] at hn
      exact absurd hn (by simp)
    · rw [hnew] at hn
      obtain rfl := Option.some.inj hn
      omega
    · exact absurd ⟨hv, hp⟩ hz
    · exact absurd ⟨hv, hp⟩ hz
    · exact absurd ⟨hv, hp⟩ hz
    · rw [hnew] at hn
      obtain rfl := Option.some.inj hn
      rw [hrun]
      simp [descTrace, hoerr, List.countP_cons, Event.isOpenDesc, Event.isEnumerate]
    · rw [hnew] at hn
      obtain rfl := Option.some.inj hn
      obtain ⟨post, hpost, hp⟩ := reset_chip_extends drv cfg ftdi (descTrace cfg ftdi err oerr)
      have hc : post.countP Event.isOpenDesc = 0 :=
        List.countP_eq_zero.mpr (fun e he1 => by simp [(hp e he1).1])
      rw [hrun, hpost]
      refine ⟨by simp [descTrace, hoerr], ?_, fun e he1 => ?_⟩
      · simp [List.countP_append, hc, descTrace, List.countP_cons, Event.isOpenDesc]
      · rcases List.mem_append.mp he1 with h1 | h1
        · exact ((descTrace_plain cfg ftdi err oerr he ho).1 e h1).2.2.2.2.2
        · exact (hp e h1).2

/-- C5 as amended, at two runs against a library in which every call
succeeds: with `--vid=0403 --pid=6001` configured the descriptor open is called
with exactly these values, and with the initial globals the run enumerates. -/
theorem C5_path_chosen_by_configured_ids_witness :
    driverOk.ftdi_new = some 1 ∧
    0 ≤ driverOk.ftdi_set_interface 1 Config.default.interface ∧
    Event.ftdi_usb_open_desc 1 0x0403 0x6001 none none 0
      ∈ (common_ftdi_init driverOk
          { Config.default with usb_vid := 0x0403, usb_pid := 0x6001 }).trace ∧
    Event.ftdi_usb_find_all 1 0 0 1 ∈ (common_ftdi_init driverOk Config.default).trace :=
  ⟨rfl, by decide,
    ((C5_path_chosen_by_configured_ids driverOk
      { Config.default with usb_vid := 0x0403, usb_pid := 0x6001 } 1 rfl (by decide)).2.1
        (by decide)).1,
    ((C5_path_chosen_by_configured_ids driverOk Config.default 1 rfl (by decide)).1
        ⟨rfl, rfl⟩).1⟩

/-- C6: for every configuration and every behaviour of the library, if a
device-resolution step of `common_ftdi_init` fails, that is, `ftdi_new` returns
null, or `ftdi_set_interface` returns a negative value, or (both ids zero)
`ftdi_usb_find_all` returns fewer than 1 device or `ftdi_usb_open_dev` on the
first list entry returns a negative value, or (an id not zero)
`ftdi_usb_open_desc` returns a negative value, then the run prints exactly one
diagnostic, returns the null handle, and neither calls `p_exit` nor issues a
reset. If instead `ftdi_new` returns a context, `ftdi_set_interface` does not
fail, the open on the selected path does not fail and the reset flag is not
set, the run returns that context, printing nothing. -/
theorem C6_resolution_failure_returns_null (drv : Driver) (cfg : Config) :
    (drv.ftdi_new = none → (common_ftdi_init drv cfg).failedQuietly) ∧
    (∀ ftdi, drv.ftdi_new = some ftdi →
      (drv.ftdi_set_interface ftdi cfg.interface < 0 →
        (common_ftdi_init drv cfg).failedQuietly) ∧
      (cfg.usb_vid = 0 → cfg.usb_pid = 0 → (drv.ftdi_usb_find_all ftdi 0 0).ret < 1 →
        (common_ftdi_init drv cfg).failedQuietly) ∧
      (∀ dev devs, cfg.usb_vid = 0 → cfg.usb_pid = 0 →
        drv.ftdi_usb_find_all ftdi 0 0 = FindAll.devices (dev :: devs) →
        drv.ftdi_usb_open_dev ftdi dev < 0 → (common_ftdi_init drv cfg).failedQuietly) ∧
      (¬ (cfg.usb_vid = 0 ∧ cfg.usb_pid = 0) →
        drv.ftdi_usb_open_desc ftdi cfg.usb_vid cfg.usb_pid cfg.usb_description
          cfg.usb_serial < 0 → (common_ftdi_init drv cfg).failedQuietly) ∧
      (∀ dev devs, 0 ≤ drv.ftdi_set_interface ftdi cfg.interface →
        cfg.usb_vid = 0 → cfg.usb_pid = 0 →
        drv.ftdi_usb_find_all ftdi 0 0 = FindAll.devices (dev :: devs) →
        0 ≤ drv.ftdi_usb_open_dev ftdi dev → cfg.reset = 0 →
        (common_ftdi_init drv cfg).outcome = InitOutcome.returned (some ftdi) ∧
        Event.ftdi_new (some ftdi) ∈ (common_ftdi_init drv cfg).trace ∧
        (∀ e ∈ (common_ftdi_init drv cfg).trace, e.isStderr = false ∧ e.isExit = false)) ∧
      (0 ≤ drv.ftdi_set_interface ftdi cfg.interface →
        ¬ (cfg.usb_vid = 0 ∧ cfg.usb_pid = 0) →
        0 ≤ drv.ftdi_usb_open_desc ftdi cfg.usb_vid cfg.usb_pid cfg.usb_description
          cfg.usb_serial → cfg.reset = 0 →
        (common_ftdi_init drv cfg).outcome = InitOutcome.returned (some ftdi) ∧
        Event.ftdi_new (some ftdi) ∈ (common_ftdi_init drv cfg).trace ∧
        (∀ e ∈ (common_ftdi_init drv cfg).trace, e.isStderr = false ∧ e.isExit = false))) := by
  have hq : (∃ e ∈ (common_ftdi_init drv cfg).trace, e.isResolutionFailure = true) →
      (common_ftdi_init drv cfg).failedQuietly := init_failure_run drv cfg
  rcases common_ftdi_init_cases drv cfg with
    ⟨hn, hrun⟩ | ⟨ftdi1, err, hn, herr, he, hrun⟩ |
    ⟨ftdi1, err, ret, hn, herr, he, hv, hp, hret, hlt, hrun⟩ |
    ⟨ftdi1, err, dev1, devs1, oerr, hn, herr, he, hv, hp, hfound, hoerr, ho, hrun⟩ |
    ⟨ftdi1, err, dev1, devs1, oerr, hn, herr, he, hv, hp, hfound, hoerr, ho, hrun⟩ |
    ⟨ftdi1, err, oerr, hn, herr, he, hnz, hoerr, ho, hrun⟩ |
    ⟨ftdi1, err, oerr, hn, herr, he, hnz, hoerr, ho, hrun⟩
  · have hQ : (common_ftdi_init drv cfg).failedQuietly :=
      hq ⟨Event.ftdi_new none, by rw [hrun]; simp, rfl⟩
    refine ⟨fun _ => hQ, fun ftdi hf => ?_⟩
    rw [hn] at hf
    exact absurd hf (by simp)
  · have hQ : (common_ftdi_init drv cfg).failedQuietly :=
      hq ⟨Event.ftdi_set_interface ftdi1 cfg.interface err, by rw [hrun]; simp,
        by simp [Event.isResolutionFailure, he]⟩
    refine ⟨fun _ => hQ, fun ftdi hf => ?_⟩
    exact ⟨fun _ => hQ, fun _ _ _ => hQ, fun _ _ _ _ _ _ => hQ, fun _ _ => hQ,
      fun dev devs h0 => by
        rw [hn] at hf; obtain rfl := Option.some.inj hf; omega,
      fun h0 => by
        rw [hn] at hf; obtain rfl := Option.some.inj hf; omega⟩
  · have hQ : (common_ftdi_init drv cfg).failedQuietly :=
      hq ⟨Event.ftdi_usb_find_all ftdi1 0 0 ret, by rw [hrun]; simp,
        by simp [Event.isResolutionFailure, hlt]⟩
    refine ⟨fun _ => hQ, fun ftdi hf => ?_⟩
    rw [hn] at hf
    obtain rfl := Option.some.inj hf
    refine ⟨fun _ => hQ, fun _ _ _ => hQ, fun _ _ _ _ _ _ => hQ, fun _ _ => hQ,
      fun dev devs _ _ _ hd => ?_, fun _ hz => absurd ⟨hv, hp⟩ hz⟩
    rw [hd] at hret
    simp [FindAll.ret] at hret
    omega
  · have hQ : (common_ftdi_init drv cfg).failedQuietly :=
      hq ⟨Event.ftdi_usb_open_dev ftdi1 dev1 oerr, by rw [hrun]; simp [enumTrace],
        by simp [Event.isResolutionFailure, ho]⟩
    refine ⟨fun _ => hQ, fun ftdi hf => ?_⟩
    rw [hn] at hf
    obtain rfl := Option.some.inj hf
    refine ⟨fun _ => hQ, fun _ _ _ => hQ, fun _ _ _ _ _ _ => hQ, fun _ _ => hQ,
      fun dev devs _ _ _ hd h0 => ?_, fun _ hz => absurd ⟨hv, hp⟩ hz⟩
    rw [hfound] at hd
    simp at hd
    rw [← hd.1, ← hoerr] at h0
    omega
  · refine ⟨fun h0 => ?_, fun ftdi hf => ?_⟩
    · rw [hn] at h0
      exact absurd h0 (by simp)
    rw [hn] at hf
    obtain rfl := Option.some.inj hf
    refine ⟨fun h0 => by omega, fun _ _ h0 => ?_, fun dev devs _ _ hd h0 => ?_,
      fun hz => absurd ⟨hv, hp⟩ hz, fun dev devs _ _ _ _ _ hflag => ?_,
      fun _ hz => absurd ⟨hv, hp⟩ hz⟩
    · rw [hfound] at h0
      simp [FindAll.ret] at h0
      omega
    · rw [hfound] at hd
      simp at hd
      rw [← hd.1, ← hoerr] at h0
      omega
    · rw [hrun, (reset_chip_no_failure drv cfg ftdi1 _
        (fun x hx => ((enumTrace_plain cfg ftdi1 err dev1 devs1 oerr he ho).1 x hx).2.2.1)).2
          hflag]
      refine ⟨rfl, by simp [enumTrace], fun e he1 => ?_⟩
      exact ⟨((enumTrace_plain cfg ftdi1 err dev1 devs1 oerr he ho).1 e he1).2.2.2.2.1,
        ((enumTrace_plain cfg ftdi1 err dev1 devs1 oerr he ho).1 e he1).2.2.2.1⟩
  · have hQ : (common_ftdi_init drv cfg).failedQuietly :=
      hq ⟨Event.ftdi_usb_open_desc ftdi1 cfg.usb_vid cfg.usb_pid cfg.usb_description
          cfg.usb_serial oerr, by rw [hrun]; simp [descTrace],
        by simp [Event.isResolutionFailure, ho]⟩
    refine ⟨fun _ => hQ, fun ftdi hf => ?_⟩
    rw [hn] at hf
    obtain rfl := Option.some.inj hf
    exact ⟨fun _ => hQ, fun _ _ _ => hQ, fun _ _ _ _ _ _ => hQ, fun _ _ => hQ,
      fun dev devs _ hv hp => absurd ⟨hv, hp⟩ hnz,
      fun _ _ h0 => by rw [← hoerr] at h0; omega⟩
  · refine ⟨fun h0 => ?_, fun ftdi hf => ?_⟩
    · rw [hn] at h0
      exact absurd h0 (by simp)
    rw [hn] at hf
    obtain rfl := Option.some.inj hf
    refine ⟨fun h0 => by omega, fun hv hp => absurd ⟨hv, hp⟩ hnz,
      fun dev devs hv hp => absurd ⟨hv, hp⟩ hnz, fun _ h0 => by rw [← hoerr] at h0; omega,
      fun dev devs _ hv hp => absurd ⟨hv, hp⟩ hnz, fun _ _ _ hflag => ?_⟩
    rw [hrun, (reset_chip_no_failure drv cfg ftdi1 _
      (fun x hx => ((descTrace_plain cfg ftdi1 err oerr he ho).1 x hx).2.2.1)).2 hflag]
    refine ⟨rfl, by simp [descTrace], fun e he1 => ?_⟩
    exact ⟨((descTrace_plain cfg ftdi1 err oerr he ho).1 e he1).2.2.2.2.1,
      ((descTrace_plain cfg ftdi1 err oerr he ho).1 e he1).2.2.2.1⟩

/-- C6 at five failing libraries and at a library in which every call
succeeds: no context, a failing `ftdi_set_interface`, no device, a failing
`ftdi_usb_open_dev`, a failing `ftdi_usb_open_desc` each give the null handle
after one diagnostic; the succeeding library gives its context on both
paths. -/
theorem C6_resolution_failure_returns_null_witness :
    (common_ftdi_init driverNoContext Config.default).failedQuietly ∧
    (common_ftdi_init driverBadInterface Config.default).failedQuietly ∧
    ((driverNoDevice.ftdi_usb_find_all 1 0 0).ret < 1 ∧
      (common_ftdi_init driverNoDevice { Config.default with reset := 1 }).failedQuietly) ∧
    (driverOpenFails.ftdi_usb_open_dev 1 7 < 0 ∧
      (common_ftdi_init driverOpenFails Config.default).failedQuietly) ∧
    (common_ftdi_init driverOpenFails cfgFtdi).failedQuietly ∧
    (common_ftdi_init driverOk Config.default).outcome = InitOutcome.returned (some 1) ∧
    (common_ftdi_init driverOk cfgFtdi).outcome = InitOutcome.returned (some 1) :=
  ⟨(C6_resolution_failure_returns_null driverNoContext Config.default).1 rfl,
    ((C6_resolution_failure_returns_null driverBadInterface Config.default).2 1 rfl).1
      (by decide),
    ⟨by decide,
      ((C6_resolution_failure_returns_null driverNoDevice
        { Config.default with reset := 1 }).2 1 rfl).2.1 rfl rfl (by decide)⟩,
    ⟨by decide,
      ((C6_resolution_failure_returns_null driverOpenFails Config.default).2 1 rfl).2.2.1
        7 [] rfl rfl rfl (by decide)⟩,
    ((C6_resolution_failure_returns_null driverOpenFails cfgFtdi).2 1 rfl).2.2.2.1
      (by decide) (by decide),
    (((C6_resolution_failure_returns_null driverOk Config.default).2 1 rfl).2.2.2.2.1
      7 [] (by decide) rfl rfl rfl (by decide) rfl).1,
    (((C6_resolution_failure_returns_null driverOk cfgFtdi).2 1 rfl).2.2.2.2.2
      (by decide) (by decide) (by decide) rfl).1⟩

/-- C7: in every run of `common_ftdi_init`, wherever `ftdi_usb_reset` occurs
in the sequence of events, the reset flag is set, an open call that returned
success lies strictly before it, no failed open lies before it, no open call
and no second reset come after it; and when the flag is set and an open
succeeded, the reset is issued exactly once. -/
theorem C7_reset_only_after_successful_open (drv : Driver) (cfg : Config) :
    (∀ pre e post, (common_ftdi_init drv cfg).trace = pre ++ e :: post → e.isReset = true →
      cfg.reset ≠ 0 ∧ (∃ o ∈ pre, o.isOpenOk = true) ∧ (∀ o ∈ pre, o.isOpenFail = false) ∧
      (∀ o ∈ post, o.isOpen = false) ∧ (∀ x ∈ pre ++ post, x.isReset = false)) ∧
    (cfg.reset ≠ 0 → (∃ o ∈ (common_ftdi_init drv cfg).trace, o.isOpenOk = true) →
      (common_ftdi_init drv cfg).trace.countP Event.isReset = 1) := by
  rcases common_ftdi_init_cases drv cfg with
    ⟨_, hrun⟩ | ⟨ftdi, err, _, _, he, hrun⟩ | ⟨ftdi, err, ret, _, _, _, _, _, _, hret, hrun⟩ |
    ⟨ftdi, err, dev, devs, oerr, _, _, he, _, _, _, _, ho, hrun⟩ |
    ⟨ftdi, err, dev, devs, oerr, _, _, he, _, _, _, _, ho, hrun⟩ |
    ⟨ftdi, err, oerr, _, _, he, _, _, ho, hrun⟩ | ⟨ftdi, err, oerr, _, _, he, _, _, ho, hrun⟩
  · rw [hrun]
    refine ⟨fun pre e post h he => ?_, fun _ h => ?_⟩
    · exact (no_split_of_all_false Event.isReset _ pre post e (by simp [Event.isReset]) h he).elim
    · simp [Event.isOpenOk] at h
  · rw [hrun]
    refine ⟨fun pre e post h he => ?_, fun _ h => ?_⟩
    · exact (no_split_of_all_false Event.isReset _ pre post e (by simp [Event.isReset]) h he).elim
    · simp [Event.isOpenOk] at h
  · rw [hrun]
    refine ⟨fun pre e post h he => ?_, fun _ h => ?_⟩
    · exact (no_split_of_all_false Event.isReset _ pre post e (by simp [Event.isReset]) h he).elim
    · simp [Event.isOpenOk] at h
  · rw [hrun]
    refine ⟨fun pre e post h he => ?_, fun _ h => ?_⟩
    · exact (no_split_of_all_false Event.isReset _ pre post e
        (by simp [enumTrace, Event.isReset]) h he).elim
    · simp [enumTrace, Event.isOpenOk] at h
      omega
  · rw [hrun]
    have hplain := enumTrace_plain cfg ftdi err dev devs oerr he ho
    have key := reset_chip_trace drv cfg ftdi _ (fun x hx => (hplain.1 x hx).1) hplain.2
      (fun x hx => (hplain.1 x hx).2.1)
    exact ⟨key.1, fun h _ => key.2 h⟩
  · rw [hrun]
    refine ⟨fun pre e post h he => ?_, fun _ h => ?_⟩
    · exact (no_split_of_all_false Event.isReset _ pre post e
        (by simp [descTrace, Event.isReset]) h he).elim
    · simp [descTrace, Event.isOpenOk] at h
      omega
  · rw [hrun]
    have hplain := descTrace_plain cfg ftdi err oerr he ho
    have key := reset_chip_trace drv cfg ftdi _ (fun x hx => (hplain.1 x hx).1) hplain.2
      (fun x hx => (hplain.1 x hx).2.1)
    exact ⟨key.1, fun h _ => key.2 h⟩

/-- C7 at a run with the reset flag set against a library in which every call
succeeds: the reset is the last event, after the successful open, and occurs
once. -/
theorem C7_reset_only_after_successful_open_witness :
    (common_ftdi_init driverOk { Config.default with reset := 1 }).trace =
      [Event.ftdi_new (some 1), Event.ftdi_set_interface 1 0 0,
        Event.ftdi_usb_find_all 1 0 0 1, Event.ftdi_usb_open_dev 1 7 0, Event.ftdi_list_free]
        ++ Event.ftdi_usb_reset 1 0 :: [] ∧
    (∃ o ∈ [Event.ftdi_new (some 1), Event.ftdi_set_interface 1 0 0,
        Event.ftdi_usb_find_all 1 0 0 1, Event.ftdi_usb_open_dev 1 7 0, Event.ftdi_list_free],
      o.isOpenOk = true) ∧
    (common_ftdi_init driverOk { Config.default with reset := 1 }).trace.countP
      Event.isReset = 1 :=
  ⟨by decide,
    ((C7_reset_only_after_successful_open driverOk { Config.default with reset := 1 }).1
      [Event.ftdi_new (some 1), Event.ftdi_set_interface 1 0 0,
        Event.ftdi_usb_find_all 1 0 0 1, Event.ftdi_usb_open_dev 1 7 0, Event.ftdi_list_free]
      (Event.ftdi_usb_reset 1 0) [] (by decide) (by decide)).2.1,
    (C7_reset_only_after_successful_open driverOk { Config.default with reset := 1 }).2
      (by decide) (by decide)⟩

/-- C9: in a run of `common_options`, every option `(c, optarg)` that
`getopt_long` returns (here: after the options `pre`, which the run got
through, and before the options `post`) is offered to `p_options` exactly once
and before any common handling. The events of the run are those of the options
before it, then the offer, then what follows; each earlier option was offered
once, and a run that returns has offered as many times as there are options.
If `p_options` claims the option (returns non-zero), the offer is its only
event and the run goes on with the remaining options from the very state
reached before it: the six configuration fields are unchanged by it and
neither the help text nor `p_exit` is triggered for it, whatever `c` is.
If it is not claimed, the events of the `switch` follow the offer, and they
hold no further offer. -/
theorem C9_every_option_offered_once {σ : Type} (dm : DataModel) (h : Handler σ)
    (argv : List (List Char)) (opts : List Char) (longopts : List option)
    (st : State) (hs : σ) (pre post : List (Int × Option (List Char)))
    (c : Int) (optarg : Option (List Char))
    (hscan : getopt_scan opts longopts false argv.tail = pre ++ (c, optarg) :: post)
    (hpre : ∀ o ∈ pre, o.1 > -1) (hc : c > -1)
    (hreach : (common_options_loop dm h pre st hs).outcome = Outcome.returned 0) :
    (common_options_loop dm h pre st hs).trace.countP Event.isOffer = pre.length ∧
    (∃ tail, (common_options dm h argv opts longopts st hs).trace =
      (common_options_loop dm h pre st hs).trace ++
        Event.p_options c optarg (h (common_options_loop dm h pre st hs).hstate c optarg).1
          :: tail) ∧
    ((h (common_options_loop dm h pre st hs).hstate c optarg).1 ≠ 0 →
      (common_options dm h argv opts longopts st hs).trace =
        (common_options_loop dm h pre st hs).trace ++
          Event.p_options c optarg (h (common_options_loop dm h pre st hs).hstate c optarg).1 ::
            (common_options_loop dm h post (common_options_loop dm h pre st hs).state
              (h (common_options_loop dm h pre st hs).hstate c optarg).2).trace ∧
      (common_options dm h argv opts longopts st hs).state =
        (common_options_loop dm h post (common_options_loop dm h pre st hs).state
          (h (common_options_loop dm h pre st hs).hstate c optarg).2).state ∧
      (common_options dm h argv opts longopts st hs).outcome =
        (common_options_loop dm h post (common_options_loop dm h pre st hs).state
          (h (common_options_loop dm h pre st hs).hstate c optarg).2).outcome ∧
      (post = [] →
        (common_options dm h argv opts longopts st hs).state =
          (common_options_loop dm h pre st hs).state ∧
        (common_options dm h argv opts longopts st hs).outcome = Outcome.returned 0)) ∧
    ((h (common_options_loop dm h pre st hs).hstate c optarg).1 = 0 →
      (common_switch dm c optarg (common_options_loop dm h pre st hs).state).2.1.countP
        Event.isOffer = 0 ∧
      ((common_switch dm c optarg (common_options_loop dm h pre st hs).state).2.2 = Flow.next →
        (common_options dm h argv opts longopts st hs).trace =
          (common_options_loop dm h pre st hs).trace ++
            Event.p_options c optarg 0 ::
              ((common_switch dm c optarg (common_options_loop dm h pre st hs).state).2.1 ++
                (common_options_loop dm h post
                  (common_switch dm c optarg (common_options_loop dm h pre st hs).state).1
                  (h (common_options_loop dm h pre st hs).hstate c optarg).2).trace)) ∧
      ((common_switch dm c optarg (common_options_loop dm h pre st hs).state).2.2 ≠ Flow.next →
        (common_options dm h argv opts longopts st hs).trace =
          (common_options_loop dm h pre st hs).trace ++
            Event.p_options c optarg 0 ::
              (common_switch dm c optarg (common_options_loop dm h pre st hs).state).2.1)) ∧
    ((common_options dm h argv opts longopts st hs).outcome = Outcome.returned 0 →
      (∀ o ∈ post, o.1 > -1) →
      (common_options dm h argv opts longopts st hs).trace.countP Event.isOffer =
        pre.length + 1 + post.length) := by
  have hW : common_options dm h argv opts longopts st hs =
      common_options_loop dm h (pre ++ (c, optarg) :: post) st hs := by
    simp [common_options, hscan]
  have hsw : (common_switch dm c optarg (common_options_loop dm h pre st hs).state).2.1.countP
      Event.isOffer = 0 :=
    List.countP_eq_zero.mpr (fun e he => by simp [switch_trace_no_offer dm c optarg _ e he])
  rw [hW, loop_append dm h pre ((c, optarg) :: post) st hs hpre hreach]
  refine ⟨loop_offer_count dm h pre st hs hpre hreach, ?_, ?_, ?_, ?_⟩
  · by_cases hf : (common_options_body dm h c optarg (common_options_loop dm h pre st hs).state
        (common_options_loop dm h pre st hs).hstate).2.2.2 = Flow.next
    · rw [loop_cons_next dm h c optarg post _ _ hc hf, (body_trace dm h c optarg _ _).1]
      exact ⟨_, rfl⟩
    · rw [(loop_cons_stop dm h c optarg post _ _ hc hf).1, (body_trace dm h c optarg _ _).1]
      exact ⟨_, rfl⟩
  · intro hclaim
    have hb : common_options_body dm h c optarg (common_options_loop dm h pre st hs).state
        (common_options_loop dm h pre st hs).hstate =
        ((common_options_loop dm h pre st hs).state,
          (h (common_options_loop dm h pre st hs).hstate c optarg).2,
          [Event.p_options c optarg (h (common_options_loop dm h pre st hs).hstate c optarg).1],
          Flow.next) := by
      simp [common_options_body, hclaim]
    have hf : (common_options_body dm h c optarg (common_options_loop dm h pre st hs).state
        (common_options_loop dm h pre st hs).hstate).2.2.2 = Flow.next := by rw [hb]
    rw [loop_cons_next dm h c optarg post _ _ hc hf, hb]
    refine ⟨by simp, rfl, rfl, fun hp => ?_⟩
    subst hp
    simp [common_options_loop]
  · intro hun
    have hb : common_options_body dm h c optarg (common_options_loop dm h pre st hs).state
        (common_options_loop dm h pre st hs).hstate =
        ((common_switch dm c optarg (common_options_loop dm h pre st hs).state).1,
          (h (common_options_loop dm h pre st hs).hstate c optarg).2,
          Event.p_options c optarg 0 ::
            (common_switch dm c optarg (common_options_loop dm h pre st hs).state).2.1,
          (common_switch dm c optarg (common_options_loop dm h pre st hs).state).2.2) :=
      body_of_unclaimed dm h c optarg _ _ hun
    refine ⟨hsw, fun hn => ?_, fun hn => ?_⟩
    · have hf : (common_options_body dm h c optarg (common_options_loop dm h pre st hs).state
          (common_options_loop dm h pre st hs).hstate).2.2.2 = Flow.next := by rw [hb]; exact hn
      rw [loop_cons_next dm h c optarg post _ _ hc hf, hb]
      simp
    · have hf : (common_options_body dm h c optarg (common_options_loop dm h pre st hs).state
          (common_options_loop dm h pre st hs).hstate).2.2.2 ≠ Flow.next := by rw [hb]; exact hn
      rw [(loop_cons_stop dm h c optarg post _ _ hc hf).1, hb]
  · intro hret hpost
    have hall : ∀ o ∈ (c, optarg) :: post, o.1 > -1 := by
      intro o ho
      rcases List.mem_cons.mp ho with rfl | ho
      · exact hc
      · exact hpost o ho
    simp only [] at hret
    simp only [List.countP_append, loop_offer_count dm h pre st hs hpre hreach,
      loop_offer_count dm h ((c, optarg) :: post) _ _ hall hret, List.length_cons]
    omega

/-- C9 at `--reset --help --vid=0403` with a handler that claims `-h`: the
common letter `h` is offered once, between the offers of the other two, no help
text and no `p_exit` follow, and the run ends with the reset flag and the
vendor id set by the options around it. -/
theorem C9_every_option_offered_once_witness :
    getopt_scan COMMON_SHORT_OPTS COMMON_LONG_OPTS false argvResetHelpVid.tail =
      [(chr 'R', none)] ++ (chr 'h', none) :: [(chr 'V', some ['0', '4', '0', '3'])] ∧
    (common_options_loop DataModel.LP64 claimHelp [(chr 'R', none)] State.initial ()).outcome
      = Outcome.returned 0 ∧
    (claimHelp () (chr 'h') none).1 ≠ 0 ∧
    (common_options DataModel.LP64 claimHelp argvResetHelpVid COMMON_SHORT_OPTS
        COMMON_LONG_OPTS State.initial ()).trace =
      [Event.p_options (chr 'R') none 0, Event.p_options (chr 'h') none 1,
        Event.p_options (chr 'V') (some ['0', '4', '0', '3']) 0] ∧
    (common_options DataModel.LP64 claimHelp argvResetHelpVid COMMON_SHORT_OPTS
        COMMON_LONG_OPTS State.initial ()).state.cfg =
      { Config.default with usb_vid := 0x0403, reset := 1 } ∧
    (common_options DataModel.LP64 claimHelp argvResetHelpVid COMMON_SHORT_OPTS
        COMMON_LONG_OPTS State.initial ()).trace.countP Event.isOffer = 3 :=
  ⟨by decide, by decide, by decide, by decide, by decide,
    (C9_every_option_offered_once DataModel.LP64 claimHelp argvResetHelpVid COMMON_SHORT_OPTS
      COMMON_LONG_OPTS State.initial () [(chr 'R', none)]
      [(chr 'V', some ['0', '4', '0', '3'])] (chr 'h') none (by decide) (by decide)
      (by decide) (by decide)).2.2.2.2 (by decide) (by decide)⟩

/-- C10, evaluated where the code departs from it: on `--interface=9` the
value is rejected (diagnostic, then `p_exit(1)`), but at that call the field
`interface` already holds the rejected 9 instead of its value before the
option, `INTERFACE_ANY`. -/
theorem C10_rejected_interface_already_stored :
    State.initial.cfg.interface = INTERFACE_ANY ∧
    (common_options DataModel.LP64 claimNothing argvInterfaceNine COMMON_SHORT_OPTS
        COMMON_LONG_OPTS State.initial ()).outcome = Outcome.exited 1 ∧
    (common_options DataModel.LP64 claimNothing argvInterfaceNine COMMON_SHORT_OPTS
        COMMON_LONG_OPTS State.initial ()).trace
      = [Event.p_options (chr 'I') (some ['9']) 0, Event.stderr Diag.invalid_interface,
         Event.p_exit 1] ∧
    (common_options DataModel.LP64 claimNothing argvInterfaceNine COMMON_SHORT_OPTS
        COMMON_LONG_OPTS State.initial ()).state.cfg
      = { Config.default with interface := 9 } := by
  decide


end FtdiBitbang
